import Mathlib

/-!
Verification development for the statsig node-js-lite server SDK.

The definitions below are a shallow embedding of the SDK's core:

* `Statsig.SMap` models a JavaScript `Record<string, T>` / `Map<string, T>`
  (insertion ordered, later assignment to an existing key overwrites in place).
* `Statsig.JSON` models the dynamic JSON values flowing through specs.
* `Statsig.sha256` is an executable SHA-256 (the SDK bundles its own
  implementation in `src/utils/Sha256.ts`); `Statsig.sha256U64` is the
  big-endian unsigned 64-bit prefix used for bucketing.
* `Statsig.SpecStore.process` embeds `SpecStore._process`; the evaluator
  functions (`checkGate`, `evalSpec`, `evalConfig`, `evalRule`,
  `evalCondition`, `evalDelegate`, `evalPassPercent`, override lookups,
  `getClientInitializeResponse`) embed the `Evaluator` class.  Recursion
  through the spec catalog (gate dependencies, config delegation) is made
  total with an explicit fuel parameter; each recursive entry into the
  evaluator consumes one unit of fuel.
* Host primitives the code calls out to (current time, `Number(string)`
  coercion, `RegExp`, `Date` parsing, the user-agent parser) are collected
  in a `Statsig.Externals` record and passed explicitly.

Impure state (the spec store, the memoizing hash cache, the user object
mutated by `getClientInitializeResponse`) is passed and returned
explicitly.
-/

namespace Statsig

/-- Insertion-ordered string-keyed map, modelling a JS `Record<string, α>`
or `Map<string, α>`: assignment to an existing key overwrites in place,
assignment to a new key appends. -/
def SMap (α : Type) : Type := List (String × α)

namespace SMap

/-- Property read `m[k]` (absent keys read as `undefined`). -/
def get? {α : Type} (m : SMap α) (k : String) : Option α :=
  match m with
  | [] => none
  | (k', v) :: rest => if k' = k then some v else get? rest k

/-- Property write `m[k] = v`. -/
def set {α : Type} (m : SMap α) (k : String) (v : α) : SMap α :=
  match m with
  | [] => [(k, v)]
  | (k', v') :: rest => if k' = k then (k, v) :: rest else (k', v') :: set rest k v

/-- Number of entries (`Map.size`; keys are kept unique by `set`). -/
def size {α : Type} (m : SMap α) : Nat := m.length

/-- The keys in insertion order (`Object.keys`). -/
def keys {α : Type} (m : SMap α) : List String := m.map (·.1)

/-- Property deletion `delete m[k]`. -/
def remove {α : Type} (m : SMap α) (k : String) : SMap α :=
  match m with
  | [] => []
  | (k', v) :: rest => if k' = k then rest else (k', v) :: remove rest k

/-- The entry list of the map (the map itself, exposed as a list). -/
def entries {α : Type} (m : SMap α) : List (String × α) := m

end SMap

/-- Dynamic JSON value (the schema-loose payloads the SDK consumes).
Numbers are modelled as rationals (JS numbers are binary floats, a subset
of the rationals; none of the verified claims depends on rounding). -/
inductive JSON : Type
  | null : JSON
  | b : Bool → JSON
  | num : Rat → JSON
  | str : String → JSON
  | arr : List JSON → JSON
  | obj : List (String × JSON) → JSON

namespace JSON

/-- JS `value == null` (matches both `null` and `undefined`, which this
model collapses into `JSON.null`). -/
def isNull : JSON → Bool
  | .null => true
  | _ => false

end JSON

/-! ## SHA-256 (embeds `src/utils/Sha256.ts`)

The SDK bundles a plain SHA-256; we embed the standard algorithm over
byte lists, with 32-bit words represented as `Nat` reduced `% 2^32`. -/

/-- Truncate to a 32-bit word. -/
def w32 (x : Nat) : Nat := x % 4294967296

/-- Right rotation of a 32-bit word. -/
def rotr (n x : Nat) : Nat := w32 ((x >>> n) ||| (x <<< (32 - n)))

/-- The 64 SHA-256 round constants (FIPS 180-4), written in decimal. -/
def sha256K : List Nat :=
  [1116352408, 1899447441, 3049323471, 3921009573, 961987163,
   1508970993, 2453635748, 2870763221, 3624381080, 310598401,
   607225278, 1426881987, 1925078388, 2162078206, 2614888103,
   3248222580, 3835390401, 4022224774, 264347078, 604807628,
   770255983, 1249150122, 1555081692, 1996064986, 2554220882,
   2821834349, 2952996808, 3210313671, 3336571891, 3584528711,
   113926993, 338241895, 666307205, 773529912, 1294757372,
   1396182291, 1695183700, 1986661051, 2177026350, 2456956037,
   2730485921, 2820302411, 3259730800, 3345764771, 3516065817,
   3600352804, 4094571909, 275423344, 430227734, 506948616,
   659060556, 883997877, 958139571, 1322822218, 1537002063,
   1747873779, 1955562222, 2024104815, 2227730452, 2361852424,
   2428436474, 2756734187, 3204031479, 3329325298]

/-- Working state of the compression function. -/
structure H8 where
  a : Nat
  b : Nat
  c : Nat
  d : Nat
  e : Nat
  f : Nat
  g : Nat
  h : Nat

/-- SHA-256 initial hash value (FIPS 180-4), written in decimal. -/
def h8Init : H8 :=
  ⟨1779033703, 3144134277, 1013904242, 2773480762,
   1359893119, 2600822924, 528734635, 1541459225⟩

/-- One compression round with round constant `k` and schedule word `w`. -/
def sha256Round (st : H8) (k w : Nat) : H8 :=
  let s1 := (rotr 6 st.e) ^^^ (rotr 11 st.e) ^^^ (rotr 25 st.e)
  let ch := (st.e &&& st.f) ^^^ ((st.e ^^^ 4294967295) &&& st.g)
  let t1 := w32 (st.h + s1 + ch + k + w)
  let s0 := (rotr 2 st.a) ^^^ (rotr 13 st.a) ^^^ (rotr 22 st.a)
  let mj := (st.a &&& st.b) ^^^ (st.a &&& st.c) ^^^ (st.b &&& st.c)
  let t2 := w32 (s0 + mj)
  ⟨w32 (t1 + t2), st.a, st.b, st.c, w32 (st.d + t1), st.e, st.f, st.g⟩

/-- Extend the 16 block words to the 64-word message schedule. -/
def sha256Schedule (ws : List Nat) : Nat → List Nat
  | 0 => ws
  | n + 1 =>
    let ws := sha256Schedule ws n
    let i := ws.length
    let wm15 := ws.getD (i - 15) 0
    let wm2 := ws.getD (i - 2) 0
    let s0 := (rotr 7 wm15) ^^^ (rotr 18 wm15) ^^^ (wm15 >>> 3)
    let s1 := (rotr 17 wm2) ^^^ (rotr 19 wm2) ^^^ (wm2 >>> 10)
    ws ++ [w32 (ws.getD (i - 16) 0 + s0 + ws.getD (i - 7) 0 + s1)]

/-- Compress one 16-word block into the running hash. -/
def sha256Compress (hs : H8) (block : List Nat) : H8 :=
  let ws := sha256Schedule block 48
  let st := (sha256K.zip ws).foldl (fun st kw => sha256Round st kw.1 kw.2) hs
  ⟨w32 (hs.a + st.a), w32 (hs.b + st.b), w32 (hs.c + st.c), w32 (hs.d + st.d),
   w32 (hs.e + st.e), w32 (hs.f + st.f), w32 (hs.g + st.g), w32 (hs.h + st.h)⟩

/-- Group a byte list into big-endian 32-bit words (length must be a
multiple of 4, as it is after padding). -/
def bytesToWords : List Nat → List Nat
  | b0 :: b1 :: b2 :: b3 :: rest =>
    (b0 <<< 24 ||| b1 <<< 16 ||| b2 <<< 8 ||| b3) :: bytesToWords rest
  | _ => []

/-- Split a word list into 16-word chunks. -/
def chunk16 (ws : List Nat) : List (List Nat) :=
  if h : ws.length ≤ 16 then if ws.isEmpty then [] else [ws]
  else
    have : ws.length - 16 < ws.length := by omega
    ws.take 16 :: chunk16 (ws.drop 16)
  termination_by ws.length
  decreasing_by simpa using this

/-- Append SHA-256 padding: `0x80`, zeros, then the 64-bit big-endian bit
length. -/
def sha256Pad (msg : List Nat) : List Nat :=
  let len := msg.length
  let zeros := (55 + 64 - len % 64) % 64
  let bitLen := len * 8
  msg ++ [0x80] ++ List.replicate zeros 0 ++
    [w32 (bitLen >>> 56) % 256, (bitLen >>> 48) % 256, (bitLen >>> 40) % 256,
     (bitLen >>> 32) % 256, (bitLen >>> 24) % 256, (bitLen >>> 16) % 256,
     (bitLen >>> 8) % 256, bitLen % 256]

/-- SHA-256 digest of a byte list, as 32 bytes. -/
def sha256 (msg : List Nat) : List Nat :=
  let hs := (chunk16 (bytesToWords (sha256Pad msg))).foldl sha256Compress h8Init
  [hs.a, hs.b, hs.c, hs.d, hs.e, hs.f, hs.g, hs.h].flatMap fun w =>
    [(w >>> 24) % 256, (w >>> 16) % 256, (w >>> 8) % 256, w % 256]

/-- UTF-8 encoding of one unicode scalar value. -/
def charUtf8 (c : Char) : List Nat :=
  let n := c.toNat
  if n < 0x80 then [n]
  else if n < 0x800 then [0xc0 ||| (n >>> 6), 0x80 ||| (n &&& 0x3f)]
  else if n < 0x10000 then
    [0xe0 ||| (n >>> 12), 0x80 ||| ((n >>> 6) &&& 0x3f), 0x80 ||| (n &&& 0x3f)]
  else
    [0xf0 ||| (n >>> 18), 0x80 ||| ((n >>> 12) &&& 0x3f),
     0x80 ||| ((n >>> 6) &&& 0x3f), 0x80 ||| (n &&& 0x3f)]

/-- UTF-8 bytes of a string. -/
def utf8Bytes (s : String) : List Nat := s.data.flatMap charUtf8

/-- Big-endian unsigned 64-bit prefix of the SHA-256 of a string:
`sha256Hash(str).getBigUint64(0, false)` in the source. -/
def sha256U64 (s : String) : Nat :=
  (((sha256 (utf8Bytes s)).take 8).foldl (fun acc b => acc * 256 + b) 0)

/-- Lowercase hex digits of one byte. -/
def byteHex (b : Nat) : String :=
  let digit := fun (n : Nat) =>
    if n < 10 then Char.ofNat (48 + n) else Char.ofNat (87 + n)
  String.mk [digit (b / 16), digit (b % 16)]

/-! ## Data model (`ConfigSpec.ts` shapes as used by the evaluator) -/

/-- A nested gate exposure record `{gate, gateValue, ruleID}`. -/
structure SecondaryExposure where
  gate : String
  gateValue : String
  ruleID : String
deriving DecidableEq

/-- A rule condition (`ConfigCondition`). -/
structure ConfigCondition where
  type : String
  targetValue : JSON
  operator : Option String
  field : Option String
  idType : String
  additionalValues : SMap JSON

/-- A spec rule (`ConfigRule`). -/
structure ConfigRule where
  id : String
  salt : Option String
  passPercentage : Rat
  returnValue : JSON
  idType : String
  groupName : Option String
  isExperimentGroup : Option Bool
  configDelegate : Option String
  conditions : List ConfigCondition

/-- A parsed gate/config/layer spec (`ConfigSpec`). -/
structure ConfigSpec where
  name : String
  entity : String
  enabled : Bool
  salt : String
  defaultValue : JSON
  idType : String
  rules : List ConfigRule
  explicitParameters : Option (List String)
  hasSharedParams : Bool
  isActive : Option Bool
  version : Option Nat

/-- An ID-list with resumable byte offset.  `readBytes` is a JS number;
`none` models `NaN` (which the fetch path can produce by adding a
non-numeric `parseInt` result). -/
structure IDList where
  ids : SMap Bool
  readBytes : Option Int
  url : String
  fileID : String
  creationTime : Int

/-- The four name→spec maps plus the derived experiment→layer mapping
(`ConfigStore`). -/
structure ConfigStore where
  gates : SMap ConfigSpec
  configs : SMap ConfigSpec
  idLists : SMap IDList
  layers : SMap ConfigSpec
  experimentToLayer : SMap String

/-- Diagnostics sampling rates (`DiagnosticsSamplingRate`); the fourth
field models the `initialize` key. -/
structure SamplingRates where
  dcs : Rat
  log : Rat
  idlist : Rat
  initRate : Rat

/-- Modelled from the spec: the raw JSON object for one spec inside a
`download_config_specs` payload.  The file `ConfigSpec.ts` holding the
`ConfigSpec` constructor is not under `src/`; per the spec the constructor
validates-then-parses each spec in full, with `name`, `type`, `enabled`,
`salt`, `defaultValue`, `idType` and `rules` as essential attributes.
Optional fields absent from the payload are `none`. -/
structure RawSpec where
  name : Option String
  entity : Option String
  enabled : Option Bool
  salt : Option String
  defaultValue : Option JSON
  idType : Option String
  rules : Option (List ConfigRule)
  explicitParameters : Option (List String)
  hasSharedParams : Option Bool
  isActive : Option Bool
  version : Option Nat

/-- Modelled from the spec: `new ConfigSpec(json)` (constructor absent
from `src/`); throws — here `none` — when an essential attribute is
missing, and is otherwise a pure function of the raw JSON. -/
def ConfigSpec.fromRaw (r : RawSpec) : Option ConfigSpec :=
  match r.name, r.entity, r.enabled, r.salt, r.defaultValue, r.idType, r.rules with
  | some n, some e, some en, some s, some dv, some it, some rs =>
    some ⟨n, e, en, s, dv, it, rs, r.explicitParameters,
      r.hasSharedParams.getD false, r.isActive, r.version⟩
  | _, _, _, _, _, _, _ => none

/-- A parsed `download_config_specs` response body.  `feature_gates`,
`dynamic_configs` and `layer_configs` are `none` when the field is not an
array; `time` is `none` when the field is absent; `layers` and
`diagnostics` are `none` when absent or not an object. -/
structure SpecsPayload where
  has_updates : Bool
  time : Option Int
  feature_gates : Option (List RawSpec)
  dynamic_configs : Option (List RawSpec)
  layer_configs : Option (List RawSpec)
  layers : Option (SMap (List String))
  diagnostics : Option (SMap JSON)

/-! ## SpecStore (`SpecStore._process` and friends) -/

namespace SpecStore

/-- The mutable fields of `SpecStore` touched by `_process` /
`syncBootstrapValues`. -/
structure State where
  store : ConfigStore
  lastUpdateTime : Int
  initialUpdateTime : Int
  initReason : String
  samplingRates : SamplingRates

/-- `safeSet`: accept only numeric values, clamped to `[0, 10000]`
(`MAX_SAMPLING_RATE`). -/
def safeSetRate (cur : Rat) (v : Option JSON) : Rat :=
  match v with
  | some (.num x) => if x < 0 then 0 else if x > 10000 then 10000 else x
  | _ => cur

/-- `updateSamplingRates`: no-op unless the value is an object. -/
def updateSamplingRates (sr : SamplingRates) (obj : Option (SMap JSON)) :
    SamplingRates :=
  match obj with
  | none => sr
  | some m =>
    { dcs := safeSetRate sr.dcs (m.get? "dcs"),
      log := safeSetRate sr.log (m.get? "log"),
      idlist := safeSetRate sr.idlist (m.get? "idlist"),
      initRate := safeSetRate sr.initRate (m.get? "initialize") }

/-- The `for (const gateJSON of gateArray)` loops: construct each spec,
keying the fresh map by spec name; any construction failure aborts. -/
def buildSpecMapGo (acc : SMap ConfigSpec) :
    List RawSpec → Option (SMap ConfigSpec)
  | [] => some acc
  | r :: rs =>
    match ConfigSpec.fromRaw r with
    | none => none
    | some c => buildSpecMapGo (acc.set c.name c) rs

/-- Build one fresh name→spec map from a payload array. -/
def buildSpecMap (l : List RawSpec) : Option (SMap ConfigSpec) :=
  buildSpecMapGo [] l

/-- `_reverseLayerExperimentMapping`: invert layer → experiments into
experiment → layer. -/
def reverseLayerMapping : Option (SMap (List String)) → SMap String
  | none => []
  | some m =>
    m.foldl (fun acc le => le.2.foldl (fun acc e => acc.set e le.1) acc) []

/-- The store state after the `updateSamplingRates` call inside
`_process` (the only mutation before the array checks). -/
def withSampling (st : State) (p : SpecsPayload) : State :=
  { st with samplingRates := updateSamplingRates st.samplingRates p.diagnostics }

/-- `SpecStore._process(specsJSON)`: returns whether the payload was
accepted, together with the store state after the call. -/
def process (st : State) (p : SpecsPayload) : Bool × State :=
  if !p.has_updates then (false, st)
  else if (match p.time with | some t => decide (t < st.lastUpdateTime) | none => false) then
    (false, st)
  else
    let st1 : State := withSampling st p
    match p.feature_gates, p.dynamic_configs, p.layer_configs with
    | some gateArray, some configArray, some layersArray =>
      match buildSpecMap gateArray, buildSpecMap configArray,
          buildSpecMap layersArray with
      | some updatedGates, some updatedConfigs, some updatedLayers =>
        let updatedExpToLayer := reverseLayerMapping p.layers
        (true,
         { st1 with
            store := { st1.store with
              gates := updatedGates,
              configs := updatedConfigs,
              layers := updatedLayers,
              experimentToLayer := updatedExpToLayer },
            lastUpdateTime := (p.time.getD st1.lastUpdateTime) })
      | _, _, _ => (false, st1)
    | _, _, _ => (false, st1)

/-- `syncBootstrapValues(bootstrapValues)` parses the payload string with
`JSON.parse` (a pure, deterministic function of the string, represented
here by the already-parsed payload) and feeds it to `_process`. -/
def syncBootstrapValues (st : State) (parsed : SpecsPayload) : Bool × State :=
  process st parsed

/-- `isServingChecks()`. -/
def isServingChecks (st : State) : Bool := st.lastUpdateTime != 0

end SpecStore

/-! ## Memoizing hash cache (`computeUserHash` and `hashLookupTable`) -/

/-- The process-lifetime `hashLookupTable: Map<string, bigint>`. -/
def HashTable : Type := SMap Nat

/-- `computeUserHash(userHash)`: return the cached 64-bit hash when the
cached value is truthy (a `0n` entry is falsy and recomputed), otherwise
compute it, clearing the whole table first when its size exceeds 100000,
and store it.  Returns the hash together with the table after the call. -/
def computeUserHash (t : HashTable) (userHash : String) : Nat × HashTable :=
  match SMap.get? t userHash with
  | some existingHash =>
    if existingHash ≠ 0 then (existingHash, t)
    else
      let hash := sha256U64 userHash
      let t' : HashTable := if SMap.size t > 100000 then [] else t
      (hash, SMap.set t' userHash hash)
  | none =>
    let hash := sha256U64 userHash
    let t' : HashTable := if SMap.size t > 100000 then [] else t
    (hash, SMap.set t' userHash hash)

/-- Run a sequence of `computeUserHash` calls, threading the table. -/
def runHashCalls (t : HashTable) (calls : List String) : HashTable :=
  calls.foldl (fun t s => (computeUserHash t s).2) t

/-- Every entry of the table holds the SHA-256-derived hash of its key
(the invariant making the memoization transparent). -/
def HashTableOk (t : HashTable) : Prop :=
  ∀ k v, SMap.get? t k = some v → v = sha256U64 k

/-! ## ID-list fetch (`SpecStore.genFetchIDList` body processing) -/

/-- `parseInt(str)` (base 10): skip leading whitespace, read an optional
sign and then the longest prefix of decimal digits; `none` models `NaN`
(no digits). -/
def parseIntJs (s : String) : Option Int :=
  let cs := s.data.dropWhile (fun c => c = ' ' || c = '\t' || c = '\n' || c = '\r')
  let signed : Bool × List Char :=
    match cs with
    | '-' :: rest => (true, rest)
    | '+' :: rest => (false, rest)
    | cs => (false, cs)
  let digits := signed.2.takeWhile Char.isDigit
  if digits.isEmpty then none
  else
    let n : Int := digits.foldl (fun acc c => acc * 10 + ((c.toNat : Int) - 48)) 0
    some (if signed.1 then -n else n)

/-- JS `+` on two numbers, where `none` is `NaN` (`NaN` propagates). -/
def jsAdd (a b : Option Int) : Option Int :=
  match a, b with
  | some x, some y => some (x + y)
  | _, _ => none

/-- The relevant parts of the ranged-GET response inside
`genFetchIDList`: the `Content-Length` header (absent ⇒ `none`) and the
body text. -/
structure IDListFetchResponse where
  contentLength : Option String
  body : String

/-- Modelled from the spec: `IDListUtil.updateIdList` (the file
`IDListUtil.ts` is not under `src/`).  The body is a series of lines
`<±><hashed-id>`: `+` adds the 8-char hash to `ids`, `-` removes it;
a line that does not begin with `+`/`-` or whose content length is
unexpected invalidates the whole list, which is dropped from the store. -/
def updateIdList (lists : SMap IDList) (name : String) (body : String) :
    SMap IDList :=
  let lines := (body.splitOn "\n").filter (fun l => !l.isEmpty)
  let step := fun (acc : Option (SMap Bool)) (line : String) =>
    match acc with
    | none => none
    | some ids =>
      if line.length ≠ 9 then none
      else if line.startsWith "+" then some (SMap.set ids (line.drop 1) true)
      else if line.startsWith "-" then some (SMap.remove ids (line.drop 1))
      else none
  match SMap.get? lists name with
  | none => lists
  | some l =>
    match lines.foldl step (some l.ids) with
    | none => SMap.remove lists name
    | some ids => SMap.set lists name { l with ids := ids }

/-- The body-processing tail of `genFetchIDList` once the ranged GET has
returned: read `Content-Length` (throwing — caught by the surrounding
`try`/`catch`, which only warns — when the header is absent), add its
`parseInt` to the list's `readBytes` (the `typeof length === 'number'`
guard is satisfied even by `NaN`, so the `delete` branch is unreachable),
then feed the body to `IDListUtil.updateIdList`.  Returns the ID-list map
after the call together with whether a failure was reported (warned). -/
def genFetchIDListProcess (lists : SMap IDList) (name : String)
    (res : IDListFetchResponse) : SMap IDList × Bool :=
  match res.contentLength with
  | none => (lists, true)
  | some contentLength =>
    let length := parseIntJs contentLength
    match SMap.get? lists name with
    | none => (lists, true)
    | some l =>
      let lists :=
        SMap.set lists name { l with readBytes := jsAdd l.readBytes length }
      (updateIdList lists name res.body, false)

/-! ## Evaluator: host primitives, user model, evaluation results -/

/-- The four user-agent fields the parser exposes. -/
structure UAResult where
  osName : Option String
  osVersion : Option String
  browserName : Option String
  browserVersion : Option String

/-- Host primitives the evaluator calls out to, passed explicitly:
`Date.now()`, `Number(string)` coercion (`none` is `NaN`), JS number
formatting, `new RegExp(pattern).test(str)` (`none` models a compile
failure), `new Date(string).getTime()` (`none` when invalid),
`setHours(0,0,0,0)` truncation to local midnight, and the user-agent
parser the spec lists as an assumed-available collaborator. -/
structure Externals where
  now : Int
  numOfString : String → Option Rat
  numToString : Rat → String
  regexTest : String → String → Option Bool
  parseDateMs : String → Option Int
  truncToDay : Int → Int
  parseUA : String → UAResult

/-- Modelled from the spec: the typed `StatsigUser` shape
(`StatsigUser.ts` is not under `src/`); the fields are the ones the
evaluator reads, all optional. -/
structure StatsigUser where
  userID : Option String
  email : Option String
  ip : Option String
  userAgent : Option String
  country : Option String
  locale : Option String
  appVersion : Option String
  custom : Option (SMap JSON)
  privateAttributes : Option (SMap JSON)
  customIDs : Option (SMap String)
  statsigEnvironment : Option (SMap JSON)

/-- `EvaluationDetails` (the `serverTime` field is `Date.now()` at
construction). -/
structure EvaluationDetails where
  configSyncTime : Int
  initTime : Int
  serverTime : Int
  reason : String

/-- `ConfigEvaluation` (all fields of the class). -/
structure ConfigEvaluation where
  value : Bool
  rule_id : String
  secondary_exposures : List SecondaryExposure
  json_value : JSON
  explicit_parameters : Option (List String)
  config_delegate : Option String
  unsupported : Bool
  undelegated_secondary_exposures : List SecondaryExposure
  is_experiment_group : Bool
  group_name : Option String
  evaluation_details : Option EvaluationDetails
  configVersion : Option Nat

namespace ConfigEvaluation

/-- The `ConfigEvaluation` constructor: a boolean `json_value` (legacy
gate case) is replaced by `{}`, `undelegated_secondary_exposures` starts
out as the secondary exposures, `is_experiment_group` as `false`. -/
def make (value : Bool) (rule_id : String) (group_name : Option String)
    (secondary : List SecondaryExposure) (json_value : JSON)
    (explicit : Option (List String)) (delegate : Option String)
    (version : Option Nat) (unsup : Bool) : ConfigEvaluation :=
  { value := value,
    rule_id := rule_id,
    secondary_exposures := secondary,
    json_value := match json_value with | .b _ => .obj [] | v => v,
    explicit_parameters := explicit,
    config_delegate := delegate,
    unsupported := unsup,
    undelegated_secondary_exposures := secondary,
    is_experiment_group := false,
    group_name := group_name,
    evaluation_details := none,
    configVersion := version }

/-- `withEvaluationDetails`. -/
def withDetails (e : ConfigEvaluation) (d : EvaluationDetails) : ConfigEvaluation :=
  { e with evaluation_details := some d }

/-- `ConfigEvaluation.unsupported(configSyncTime, initialUpdateTime,
version)`. -/
def mkUnsupported (configSyncTime initialUpdateTime : Int)
    (version : Option Nat) (serverNow : Int) : ConfigEvaluation :=
  (make false "" none [] (.obj []) none none version true).withDetails
    ⟨configSyncTime, initialUpdateTime, serverNow, "Unsupported"⟩

end ConfigEvaluation

/-- The `Evaluator`'s mutable fields: the spec store and the three
override maps (each name → { userID or `""` → value }). -/
structure EvalState where
  store : SpecStore.State
  gateOverrides : SMap (SMap Bool)
  configOverrides : SMap (SMap (SMap JSON))
  layerOverrides : SMap (SMap (SMap JSON))

/-! ## JS dynamic-value helpers -/

/-- JS `String(v)`. -/
def jsToStr (ext : Externals) : JSON → String
  | .null => "null"
  | .b true => "true"
  | .b false => "false"
  | .num n => ext.numToString n
  | .str s => s
  | .arr l => String.intercalate "," (l.attach.map (fun x => jsToStr ext x.1))
  | .obj _ => "[object Object]"
  termination_by v => sizeOf v
  decreasing_by
    have := List.sizeOf_lt_of_mem x.2
    simp only [JSON.arr.sizeOf_spec]
    omega

/-- JS `String(b)` for a boolean. -/
def jsBoolStr (b : Bool) : String := if b then "true" else "false"

/-- JS `a ?? b` / `a || b` on nullish-ness. -/
def jsOr (a b : JSON) : JSON := if a.isNull then b else a

/-- JS `Number(v)` on a non-null value (`none` is `NaN`); arrays coerce
through their string form, objects are `NaN`. -/
def toNumberJs (ext : Externals) : JSON → Option Rat
  | .null => some 0
  | .b true => some 1
  | .b false => some 0
  | .num n => some n
  | .str s => ext.numOfString s
  | .arr l => ext.numOfString (jsToStr ext (.arr l))
  | .obj _ => none

/-- Loose-equality `ToPrimitive`: arrays and objects become their string
form. -/
def jsPrim (ext : Externals) (v : JSON) : JSON :=
  match v with
  | .arr l => .str (jsToStr ext (.arr l))
  | .obj m => .str (jsToStr ext (.obj m))
  | x => x

/-- JS loose equality `a == b` (`null`/`undefined` are collapsed into
`JSON.null`; two distinct objects are reference-unequal). -/
def jsLooseEq (ext : Externals) (a b : JSON) : Bool :=
  match a, b with
  | .null, .null => true
  | .null, _ => false
  | _, .null => false
  | .arr _, .arr _ => false
  | .arr _, .obj _ => false
  | .obj _, .obj _ => false
  | .obj _, .arr _ => false
  | a, b =>
    match jsPrim ext a, jsPrim ext b with
    | .str x, .str y => x == y
    | x, y =>
      match toNumberJs ext x, toNumberJs ext y with
      | some p, some q => p == q
      | _, _ => false

/-- `SameValueZero` as used by `Set.has` (objects by reference, hence
never equal to a freshly-parsed value). -/
def strictSame : JSON → JSON → Bool
  | .null, .null => true
  | .num a, .num b => a == b
  | .str a, .str b => a == b
  | .b a, .b b => a == b
  | _, _ => false

/-- An `Option String` as a JS value (`undefined` for `none`). -/
def optStr : Option String → JSON
  | some s => .str s
  | none => .null

/-- JS `s.toLowerCase()` (character-wise lowercasing over the string's
characters; written over the character list so that it evaluates by
kernel reduction). -/
def jsToLower (s : String) : String := String.mk (s.data.map Char.toLower)

/-! ## User field access -/

/-- Dynamic property access `user[field]` on the typed user object. -/
def userIndex (u : StatsigUser) : String → JSON
  | "userID" => optStr u.userID
  | "email" => optStr u.email
  | "ip" => optStr u.ip
  | "userAgent" => optStr u.userAgent
  | "country" => optStr u.country
  | "locale" => optStr u.locale
  | "appVersion" => optStr u.appVersion
  | "custom" => match u.custom with | some m => .obj m | none => .null
  | "privateAttributes" =>
    match u.privateAttributes with | some m => .obj m | none => .null
  | "customIDs" =>
    match u.customIDs with
    | some m => .obj (m.map (fun kv => (kv.1, JSON.str kv.2)))
    | none => .null
  | "statsigEnvironment" =>
    match u.statsigEnvironment with | some m => .obj m | none => .null
  | _ => .null

/-- `obj?.[field]` on an optional string-keyed object. -/
def objIndex (m : Option (SMap JSON)) (field : String) : JSON :=
  match m with
  | none => .null
  | some m => (SMap.get? m field).getD .null

/-- `getFromUser(user, field)`: the field, its lowercase form, then the
same two through `custom` and `privateAttributes`, joined by `??`. -/
def getFromUser (u : StatsigUser) (field : String) : JSON :=
  jsOr (userIndex u field) <| jsOr (userIndex u (jsToLower field)) <|
  jsOr (objIndex u.custom field) <| jsOr (objIndex u.custom (jsToLower field)) <|
  jsOr (objIndex u.privateAttributes field)
    (objIndex u.privateAttributes (jsToLower field))

/-- `getFromUserAgent(user, field)`: parse `userAgent` (strings of length
at most 1000 only) and project the requested field. -/
def getFromUserAgent (ext : Externals) (u : StatsigUser) (field : String) :
    JSON :=
  match getFromUser u "userAgent" with
  | .str ua =>
    if ua.length > 1000 then .null
    else
      let res := ext.parseUA ua
      match jsToLower field with
      | "os_name" => optStr res.osName
      | "osname" => optStr res.osName
      | "os_version" => optStr res.osVersion
      | "osversion" => optStr res.osVersion
      | "browser_name" => optStr res.browserName
      | "browsername" => optStr res.browserName
      | "browser_version" => optStr res.browserVersion
      | "browserversion" => optStr res.browserVersion
      | _ => .null
  | _ => .null

/-- `getParameterCaseInsensitive(object, key)`: the value of the first
key matching case-insensitively, in insertion order. -/
def getParamCaseInsensitive (m : Option (SMap JSON)) (key : String) : JSON :=
  match m with
  | none => .null
  | some m =>
    match List.find? (fun kv => jsToLower kv.1 = jsToLower key)
        (m : List (String × JSON)) with
    | some kv => kv.2
    | none => .null

/-- `getFromEnvironment(user, field)`. -/
def getFromEnvironment (u : StatsigUser) (field : String) : JSON :=
  getParamCaseInsensitive u.statsigEnvironment field

/-- Case-insensitive fallback of `getParameterCaseInsensitive` on the
string-valued `customIDs` map. -/
def getCustomIDCaseInsensitive (m : SMap String) (key : String) :
    Option String :=
  match List.find? (fun kv => jsToLower kv.1 = jsToLower key)
      (m : List (String × String)) with
  | some kv => some kv.2
  | none => none

/-- `Evaluator._getUnitID(user, idType)`: for a non-`userid` type, the
exact `customIDs` entry, then a case-insensitive match; otherwise
`user.userID`. -/
def getUnitID (u : StatsigUser) (idType : String) : Option String :=
  if jsToLower idType ≠ "userid" then
    match u.customIDs with
    | some cids =>
      match SMap.get? cids idType with
      | some v => some v
      | none => getCustomIDCaseInsensitive cids idType
    | none => none
  else u.userID

/-! ## Operator helpers (the leaf comparators of `_evalCondition`) -/

/-- `numberCompare(fn)`: null operands and `NaN` coercions fail. -/
def numberCompareB (ext : Externals) (f : Rat → Rat → Bool) (a b : JSON) :
    Bool :=
  if a.isNull || b.isNull then false
  else
    match toNumberJs ext a, toNumberJs ext b with
    | some x, some y => f x y
    | _, _ => false

/-- `removeVersionExtension`: the prefix before the first `-`. -/
def removeVersionExtension (v : String) : String :=
  ((v.splitOn "-").headD v)

/-- The version-part comparison loop, padding the shorter side with
`"0"`; `none` when a part is not numeric. -/
def versionPartsCompare (ext : Externals) :
    List String → List String → Option Int
  | [], [] => some 0
  | s1 :: r1, [] =>
    match ext.numOfString s1, ext.numOfString "0" with
    | some n1, some n2 =>
      if n1 < n2 then some (-1)
      else if n2 < n1 then some 1
      else versionPartsCompare ext r1 []
    | _, _ => none
  | [], s2 :: r2 =>
    match ext.numOfString "0", ext.numOfString s2 with
    | some n1, some n2 =>
      if n1 < n2 then some (-1)
      else if n2 < n1 then some 1
      else versionPartsCompare ext [] r2
    | _, _ => none
  | s1 :: r1, s2 :: r2 =>
    match ext.numOfString s1, ext.numOfString s2 with
    | some n1, some n2 =>
      if n1 < n2 then some (-1)
      else if n2 < n1 then some 1
      else versionPartsCompare ext r1 r2
    | _, _ => none
  termination_by p1 p2 => p1.length + p2.length

/-- `versionCompare(first, second)`: `none` unless both sides are
non-empty version strings with numeric parts. -/
def versionCompareB (ext : Externals) (first second : JSON) : Option Int :=
  match first, second with
  | .str f, .str s =>
    let v1 := removeVersionExtension f
    let v2 := removeVersionExtension s
    if v1.length = 0 || v2.length = 0 then none
    else versionPartsCompare ext (v1.splitOn ".") (v2.splitOn ".")
  | _, _ => none

/-- `versionCompareHelper(fn)`. -/
def versionCompareHelperB (ext : Externals) (f : Int → Bool) (a b : JSON) :
    Bool :=
  match versionCompareB ext a b with
  | none => false
  | some c => f c

/-- JS `a.includes(b)` on strings. -/
def jsIncludes (a b : String) : Bool :=
  if b.isEmpty then true else (a.splitOn b).length ≥ 2

/-- `stringCompare(ignoreCase, fn)`. -/
def stringCompareB (ext : Externals) (ignoreCase : Bool)
    (f : String → String → Bool) (a b : JSON) : Bool :=
  if a.isNull || b.isNull then false
  else if ignoreCase then
    f (jsToLower (jsToStr ext a)) (jsToLower (jsToStr ext b))
  else f (jsToStr ext a) (jsToStr ext b)

/-- `arrayAny(value, array, fn)`. -/
def arrayAnyB (v : JSON) (t : JSON) (f : JSON → JSON → Bool) : Bool :=
  match t with
  | .arr l => l.any (fun x => f v x)
  | _ => false

/-- `new Date(x)` as epoch milliseconds, with the string-then-number
fallback of `dateCompare`. -/
def jsDateMs (ext : Externals) : JSON → Option Int
  | .num n => some n.floor
  | .b x => some (if x then 1 else 0)
  | .str s =>
    match ext.parseDateMs s with
    | some d => some d
    | none => (ext.numOfString s).map (fun r => r.floor)
  | _ => none

/-- `dateCompare(fn)`. -/
def dateCompareB (ext : Externals) (f : Int → Int → Bool) (a b : JSON) :
    Bool :=
  if a.isNull || b.isNull then false
  else
    match jsDateMs ext a, jsDateMs ext b with
    | some x, some y => f x y
    | _, _ => false

/-- `arrayHasValue(value, target)`: some target element (or its
`parseInt` image) is in the value set. -/
def arrayHasValueB (ext : Externals) (value : List JSON) (target : List JSON) :
    Bool :=
  target.any (fun t =>
    value.any (fun v => strictSame v t) ||
    (match parseIntJs (jsToStr ext t) with
     | some k => value.any (fun v => strictSame v (.num k))
     | none => false))

/-- `arrayHasAllValues(value, target)`. -/
def arrayHasAllValuesB (ext : Externals) (value : List JSON)
    (target : List JSON) : Bool :=
  target.all (fun t =>
    value.any (fun v => strictSame v t) ||
    (match parseIntJs (jsToStr ext t) with
     | some k => value.any (fun v => strictSame v (.num k))
     | none => false))

/-- Modelled from the spec: `hashUnitIDForIDList` from `utils/Hashing.ts`
(not under `src/`): the first 8 hex characters of the SHA-256 of the
string value. -/
def hashUnitIDForIDList (v : JSON) : String :=
  match v with
  | .str s => String.join (((sha256 (utf8Bytes s)).take 4).map byteHex)
  | _ => ""

/-! ## Condition evaluation -/

/-- The result shape of `_evalCondition`:
`{passes, unsupported?, exposures?}`. -/
structure CondResult where
  passes : Bool
  unsupported : Bool
  exposures : Option (List SecondaryExposure)

/-- The `unsupported` condition result. -/
def condUnsupported : CondResult := ⟨false, true, none⟩

/-- The operator `switch` at the end of `_evalCondition`, on the
lowercased operator (`none` — a missing operator — falls to the
`unsupported` default). -/
def evalOperatorB (ext : Externals) (st : EvalState) (value target : JSON)
    (opLower : Option String) : CondResult :=
  match opLower with
  | none => condUnsupported
  | some op =>
    match op with
    | "gt" => ⟨numberCompareB ext (fun a b => decide (a > b)) value target, false, none⟩
    | "gte" => ⟨numberCompareB ext (fun a b => decide (a ≥ b)) value target, false, none⟩
    | "lt" => ⟨numberCompareB ext (fun a b => decide (a < b)) value target, false, none⟩
    | "lte" => ⟨numberCompareB ext (fun a b => decide (a ≤ b)) value target, false, none⟩
    | "version_gt" =>
      ⟨versionCompareHelperB ext (fun r => decide (r > 0)) value target, false, none⟩
    | "version_gte" =>
      ⟨versionCompareHelperB ext (fun r => decide (r ≥ 0)) value target, false, none⟩
    | "version_lt" =>
      ⟨versionCompareHelperB ext (fun r => decide (r < 0)) value target, false, none⟩
    | "version_lte" =>
      ⟨versionCompareHelperB ext (fun r => decide (r ≤ 0)) value target, false, none⟩
    | "version_eq" =>
      ⟨versionCompareHelperB ext (fun r => decide (r = 0)) value target, false, none⟩
    | "version_neq" =>
      ⟨versionCompareHelperB ext (fun r => decide (r ≠ 0)) value target, false, none⟩
    | "any" =>
      ⟨arrayAnyB value target (stringCompareB ext true (fun a b => a == b)), false, none⟩
    | "none" =>
      ⟨!arrayAnyB value target (stringCompareB ext true (fun a b => a == b)), false, none⟩
    | "any_case_sensitive" =>
      ⟨arrayAnyB value target (stringCompareB ext false (fun a b => a == b)), false, none⟩
    | "none_case_sensitive" =>
      ⟨!arrayAnyB value target (stringCompareB ext false (fun a b => a == b)), false, none⟩
    | "str_starts_with_any" =>
      ⟨arrayAnyB value target (stringCompareB ext true (fun a b => a.startsWith b)), false, none⟩
    | "str_ends_with_any" =>
      ⟨arrayAnyB value target (stringCompareB ext true (fun a b => a.endsWith b)), false, none⟩
    | "str_contains_any" =>
      ⟨arrayAnyB value target (stringCompareB ext true jsIncludes), false, none⟩
    | "str_contains_none" =>
      ⟨!arrayAnyB value target (stringCompareB ext true jsIncludes), false, none⟩
    | "str_matches" =>
      ⟨if (jsToStr ext value).length < 1000 then
          (ext.regexTest (jsToStr ext target) (jsToStr ext value)).getD false
        else false, false, none⟩
    | "eq" => ⟨jsLooseEq ext value target, false, none⟩
    | "neq" => ⟨!jsLooseEq ext value target, false, none⟩
    | "before" => ⟨dateCompareB ext (fun a b => decide (a < b)) value target, false, none⟩
    | "after" => ⟨dateCompareB ext (fun a b => decide (a > b)) value target, false, none⟩
    | "on" =>
      ⟨dateCompareB ext (fun a b => ext.truncToDay a == ext.truncToDay b) value target,
        false, none⟩
    | "in_segment_list" =>
      let hashed := hashUnitIDForIDList value
      let inList :=
        match SMap.get? st.store.store.idLists (jsToStr ext target) with
        | some l => SMap.get? l.ids hashed == some true
        | none => false
      ⟨inList, false, none⟩
    | "not_in_segment_list" =>
      let hashed := hashUnitIDForIDList value
      let inList :=
        match SMap.get? st.store.store.idLists (jsToStr ext target) with
        | some l => SMap.get? l.ids hashed == some true
        | none => false
      ⟨!inList, false, none⟩
    | "array_contains_any" =>
      match target, value with
      | .arr ts, .arr vs => ⟨arrayHasValueB ext vs ts, false, none⟩
      | _, _ => ⟨false, false, none⟩
    | "array_contains_none" =>
      match target, value with
      | .arr ts, .arr vs => ⟨!arrayHasValueB ext vs ts, false, none⟩
      | _, _ => ⟨false, false, none⟩
    | "array_contains_all" =>
      match target, value with
      | .arr ts, .arr vs => ⟨arrayHasAllValuesB ext vs ts, false, none⟩
      | _, _ => ⟨false, false, none⟩
    | "not_array_contains_all" =>
      match target, value with
      | .arr ts, .arr vs => ⟨!arrayHasAllValuesB ext vs ts, false, none⟩
      | _, _ => ⟨false, false, none⟩
    | _ => condUnsupported

/-- The `multi_pass_gate` / `multi_fail_gate` loop: short-circuit OR with
per-gate polarity (`rawType` is the condition's raw, un-lowercased type),
accumulating the gate exposure and then the inner exposures for every
gate checked. -/
def multiGateLoop (ext : Externals)
    (gateFn : StatsigUser → String → ConfigEvaluation)
    (user : StatsigUser) (rawType : String) :
    List JSON → List SecondaryExposure → CondResult
  | [], acc => ⟨false, false, some acc⟩
  | g :: gs, acc =>
    let gateResult := gateFn user (jsToStr ext g)
    if gateResult.unsupported then condUnsupported
    else
      let resValue :=
        if rawType = "multi_pass_gate" then gateResult.value == true
        else gateResult.value == false
      let acc := (acc ++ [⟨jsToStr ext g, jsBoolStr gateResult.value,
          gateResult.rule_id⟩]) ++ gateResult.secondary_exposures
      if resValue then ⟨true, false, some acc⟩
      else multiGateLoop ext gateFn user rawType gs acc

/-- `Evaluator._evalCondition(user, condition)`, with nested gate checks
delegated to `gateFn` (the fuelled `checkGate`). -/
def evalConditionB (ext : Externals) (st : EvalState)
    (gateFn : StatsigUser → String → ConfigEvaluation)
    (user : StatsigUser) (cond : ConfigCondition) : CondResult :=
  let field := cond.field.getD ""
  let target := cond.targetValue
  let idType := cond.idType
  let opEval := fun (value : JSON) =>
    evalOperatorB ext st value target (cond.operator.map jsToLower)
  match jsToLower cond.type with
  | "public" => ⟨true, false, none⟩
  | "fail_gate" =>
    let gateResult := gateFn user (jsToStr ext target)
    if gateResult.unsupported then condUnsupported
    else
      ⟨!gateResult.value, false,
        some (gateResult.secondary_exposures ++
          [⟨jsToStr ext target, jsBoolStr gateResult.value, gateResult.rule_id⟩])⟩
  | "pass_gate" =>
    let gateResult := gateFn user (jsToStr ext target)
    if gateResult.unsupported then condUnsupported
    else
      ⟨gateResult.value, false,
        some (gateResult.secondary_exposures ++
          [⟨jsToStr ext target, jsBoolStr gateResult.value, gateResult.rule_id⟩])⟩
  | "multi_pass_gate" =>
    match target with
    | .arr gateNames => multiGateLoop ext gateFn user cond.type gateNames []
    | _ => condUnsupported
  | "multi_fail_gate" =>
    match target with
    | .arr gateNames => multiGateLoop ext gateFn user cond.type gateNames []
    | _ => condUnsupported
  | "ip_based" => opEval (getFromUser user field)
  | "ua_based" =>
    opEval (jsOr (getFromUser user field) (getFromUserAgent ext user field))
  | "user_field" => opEval (getFromUser user field)
  | "environment_field" => opEval (getFromEnvironment user field)
  | "current_time" => opEval (.num ext.now)
  | "user_bucket" =>
    let salt :=
      match SMap.get? cond.additionalValues "salt" with
      | some v => jsToStr ext v
      | none => "undefined"
    let userHash :=
      sha256U64 (salt ++ "." ++ ((getUnitID user idType).getD ""))
    opEval (.num (userHash % 1000))
  | "unit_id" => opEval (optStr (getUnitID user idType))
  | _ => condUnsupported

/-! ## Rule and spec evaluation -/

/-- The `for (const condition of rule.conditions)` loop of `_evalRule`:
every condition is evaluated (no short-circuit on failure); `none` when
a condition is unsupported. -/
def evalRuleCondLoop (evalCond : ConfigCondition → CondResult) :
    List ConfigCondition → Bool → List SecondaryExposure →
    Option (Bool × List SecondaryExposure)
  | [], pass, acc => some (pass, acc)
  | c :: cs, pass, acc =>
    let r := evalCond c
    if r.unsupported then none
    else
      evalRuleCondLoop evalCond cs (if !r.passes then false else pass)
        (match r.exposures with
         | some es => acc ++ es
         | none => acc)

/-- `Evaluator._evalRule(user, rule)`. -/
def evalRuleB (ext : Externals) (st : EvalState)
    (gateFn : StatsigUser → String → ConfigEvaluation)
    (user : StatsigUser) (rule : ConfigRule) : ConfigEvaluation :=
  match evalRuleCondLoop (evalConditionB ext st gateFn user)
      rule.conditions true [] with
  | none =>
    ConfigEvaluation.mkUnsupported st.store.lastUpdateTime
      st.store.initialUpdateTime none ext.now
  | some (pass, exposures) =>
    let e := ConfigEvaluation.make pass rule.id rule.groupName exposures
      rule.returnValue none none none false
    { e with is_experiment_group := rule.isExperimentGroup.getD false }

/-- `Evaluator._evalPassPercent(user, rule, config)`: salted SHA-256
bucketing over `CONDITION_SEGMENT_COUNT = 10000` segments.  The
memoizing `computeUserHash` always returns `sha256U64` of its argument
(theorem `computeUserHash_value`), so the pure form is used here. -/
def evalPassPercent (user : StatsigUser) (rule : ConfigRule)
    (config : ConfigSpec) : Bool :=
  let hash := sha256U64 (config.salt ++ "." ++ (rule.salt.getD rule.id) ++
    "." ++ ((getUnitID user rule.idType).getD ""))
  decide (((hash % 10000 : Nat) : Rat) < rule.passPercentage * 100)

/-- `Evaluator._evalDelegate(user, rule, exposures)`: `none` when the rule
has no delegate or the delegate is not in the store. -/
def evalDelegateB (st : EvalState)
    (evalFn : StatsigUser → ConfigSpec → ConfigEvaluation)
    (user : StatsigUser) (rule : ConfigRule)
    (exposures : List SecondaryExposure) : Option ConfigEvaluation :=
  match rule.configDelegate with
  | none => none
  | some delName =>
    match SMap.get? st.store.store.configs delName with
    | none => none
    | some config =>
      let d := evalFn user config
      some { d with
        config_delegate := some delName,
        undelegated_secondary_exposures := exposures,
        explicit_parameters := config.explicitParameters,
        secondary_exposures := exposures ++ d.secondary_exposures,
        group_name := d.group_name.or rule.groupName }

/-- The rule loop of `_eval`: first passing rule wins, with delegation
tried first on it; `acc` is the accumulated secondary exposures. -/
def evalRulesLoop (ext : Externals) (st : EvalState)
    (gateFn : StatsigUser → String → ConfigEvaluation)
    (delegateFn : StatsigUser → ConfigSpec → ConfigEvaluation)
    (user : StatsigUser) (config : ConfigSpec) :
    List ConfigRule → List SecondaryExposure → ConfigEvaluation
  | [], acc =>
    ConfigEvaluation.make false "default" none acc config.defaultValue
      config.explicitParameters none config.version false
  | rule :: rest, acc =>
    let ruleResult := evalRuleB ext st gateFn user rule
    if ruleResult.unsupported then
      ConfigEvaluation.mkUnsupported st.store.lastUpdateTime
        st.store.initialUpdateTime config.version ext.now
    else
      let acc := acc ++ ruleResult.secondary_exposures
      if ruleResult.value then
        match evalDelegateB st delegateFn user rule acc with
        | some delegatedResult => delegatedResult
        | none =>
          let pass := evalPassPercent user rule config
          let ev := ConfigEvaluation.make pass ruleResult.rule_id
            ruleResult.group_name acc
            (if pass then ruleResult.json_value else config.defaultValue)
            config.explicitParameters ruleResult.config_delegate
            config.version false
          { ev with is_experiment_group := ruleResult.is_experiment_group }
      else evalRulesLoop ext st gateFn delegateFn user config rest acc

/-- `Evaluator._eval(user, config)`. -/
def evalB (ext : Externals) (st : EvalState)
    (gateFn : StatsigUser → String → ConfigEvaluation)
    (delegateFn : StatsigUser → ConfigSpec → ConfigEvaluation)
    (user : StatsigUser) (config : ConfigSpec) : ConfigEvaluation :=
  if !config.enabled then
    ConfigEvaluation.make false "disabled" none [] config.defaultValue
      none none config.version false
  else evalRulesLoop ext st gateFn delegateFn user config config.rules []

/-- The exposure dedup key `gate|gateValue|ruleID`. -/
def exposureKey (e : SecondaryExposure) : String :=
  e.gate ++ "|" ++ e.gateValue ++ "|" ++ e.ruleID

/-- The dedup pass of `_cleanExposures`, keeping first occurrences of
each key. -/
def dedupExposures : List SecondaryExposure → List String →
    List SecondaryExposure
  | [], _ => []
  | e :: rest, seen =>
    if seen.contains (exposureKey e) then dedupExposures rest seen
    else e :: dedupExposures rest (exposureKey e :: seen)

/-- `Evaluator._cleanExposures`: drop `segment:`-prefixed gates, then
dedupe on the `gate|gateValue|ruleID` key. -/
def cleanExposures (exposures : List SecondaryExposure) :
    List SecondaryExposure :=
  dedupExposures (exposures.filter (fun e => !(e.gate.startsWith "segment:"))) []

/-! ## Overrides and public entry points -/

/-- `Evaluator.lookupGateOverride(user, gateName)`. -/
def lookupGateOverride (st : EvalState) (user : StatsigUser)
    (gateName : String) : Option ConfigEvaluation :=
  match SMap.get? st.gateOverrides gateName with
  | none => none
  | some overrides =>
    let userOverride :=
      match user.userID with
      | some uid => SMap.get? overrides uid
      | none => none
    match userOverride with
    | some v =>
      some (ConfigEvaluation.make v "override" none [] (.obj []) none none
        none false)
    | none =>
      match SMap.get? overrides "" with
      | some v =>
        some (ConfigEvaluation.make v "override" none [] (.obj []) none none
          none false)
      | none => none

/-- `Evaluator.lookupConfigBasedOverride(user, overrides)` (shared by
config and layer override lookup). -/
def lookupConfigBasedOverride (user : StatsigUser)
    (overrides : Option (SMap (SMap JSON))) : Option ConfigEvaluation :=
  match overrides with
  | none => none
  | some overrides =>
    let userOverride :=
      match user.userID with
      | some uid => SMap.get? overrides uid
      | none => none
    match userOverride with
    | some v =>
      some (ConfigEvaluation.make true "override" none [] (.obj v) none none
        none false)
    | none =>
      match SMap.get? overrides "" with
      | some v =>
        some (ConfigEvaluation.make true "override" none [] (.obj v) none none
          none false)
      | none => none

/-- `Evaluator._evalSpec(user, config)`: unrecognized specs produce a
default-false evaluation; otherwise evaluate, clean the exposures, and
attach details (unless the evaluation already carries them). -/
def evalSpecB (ext : Externals) (st : EvalState)
    (evalFn : StatsigUser → ConfigSpec → ConfigEvaluation)
    (user : StatsigUser) (config : Option ConfigSpec) : ConfigEvaluation :=
  match config with
  | none =>
    (ConfigEvaluation.make false "" none [] (.obj []) none none none
      false).withDetails
      ⟨st.store.lastUpdateTime, st.store.initialUpdateTime, ext.now,
        "Unrecognized"⟩
  | some c =>
    let ev := evalFn user c
    let ev := { ev with secondary_exposures := cleanExposures ev.secondary_exposures }
    match ev.evaluation_details with
    | some _ => ev
    | none =>
      ev.withDetails
        ⟨st.store.lastUpdateTime, st.store.initialUpdateTime, ext.now,
          st.store.initReason⟩

/-- `Evaluator.checkGate(user, gateName)` with the recursive `_eval`
passed in. -/
def checkGateB (ext : Externals) (st : EvalState)
    (evalFn : StatsigUser → ConfigSpec → ConfigEvaluation)
    (user : StatsigUser) (gateName : String) : ConfigEvaluation :=
  match lookupGateOverride st user gateName with
  | some override =>
    override.withDetails
      ⟨st.store.lastUpdateTime, st.store.initialUpdateTime, ext.now,
        "LocalOverride"⟩
  | none =>
    if st.store.initReason = "Uninitialized" then
      (ConfigEvaluation.make false "" none [] (.obj []) none none none
        false).withDetails ⟨0, 0, ext.now, "Uninitialized"⟩
    else
      evalSpecB ext st evalFn user (SMap.get? st.store.store.gates gateName)

/-- The fuelled recursive knot for `_eval`: each nested evaluator entry
(gate dependency or config delegation) consumes one unit of fuel; with
no fuel left an unsupported evaluation is produced (the JS original
would recurse without bound on such cyclic catalogs). -/
def evalFuel (ext : Externals) : Nat → EvalState → StatsigUser →
    ConfigSpec → ConfigEvaluation
  | 0, _, _, _ =>
    ConfigEvaluation.make false "" none [] (.obj []) none none none true
  | n + 1, st, user, config =>
    evalB ext st
      (fun u g => checkGateB ext st (fun u2 c2 => evalFuel ext n st u2 c2) u g)
      (fun u c => evalFuel ext n st u c) user config

/-- The gate-check function in scope at a given fuel level. -/
def gateFnAt (ext : Externals) (n : Nat) (st : EvalState) :
    StatsigUser → String → ConfigEvaluation :=
  fun u g => checkGateB ext st (fun u2 c2 => evalFuel ext n st u2 c2) u g

/-- `_evalRule` at a given fuel level. -/
def evalRuleAt (ext : Externals) (n : Nat) (st : EvalState) :
    StatsigUser → ConfigRule → ConfigEvaluation :=
  fun user rule => evalRuleB ext st (gateFnAt ext n st) user rule

/-- Public `checkGate` at a given fuel level. -/
def checkGate (ext : Externals) (fuel : Nat) (st : EvalState)
    (user : StatsigUser) (gateName : String) : ConfigEvaluation :=
  checkGateB ext st (fun u c => evalFuel ext fuel st u c) user gateName

/-- Public `getConfig` at a given fuel level. -/
def getConfig (ext : Externals) (fuel : Nat) (st : EvalState)
    (user : StatsigUser) (configName : String) : ConfigEvaluation :=
  match lookupConfigBasedOverride user (SMap.get? st.configOverrides configName) with
  | some override =>
    override.withDetails
      ⟨st.store.lastUpdateTime, st.store.initialUpdateTime, ext.now,
        "LocalOverride"⟩
  | none =>
    if st.store.initReason = "Uninitialized" then
      (ConfigEvaluation.make false "" none [] (.obj []) none none none
        false).withDetails ⟨0, 0, ext.now, "Uninitialized"⟩
    else
      evalSpecB ext st (fun u c => evalFuel ext fuel st u c) user
        (SMap.get? st.store.store.configs configName)

/-- Public `getLayer` at a given fuel level. -/
def getLayer (ext : Externals) (fuel : Nat) (st : EvalState)
    (user : StatsigUser) (layerName : String) : ConfigEvaluation :=
  match lookupConfigBasedOverride user (SMap.get? st.layerOverrides layerName) with
  | some override =>
    override.withDetails
      ⟨st.store.lastUpdateTime, st.store.initialUpdateTime, ext.now,
        "LocalOverride"⟩
  | none =>
    if st.store.initReason = "Uninitialized" then
      (ConfigEvaluation.make false "" none [] (.obj []) none none none
        false).withDetails ⟨0, 0, ext.now, "Uninitialized"⟩
    else
      evalSpecB ext st (fun u c => evalFuel ext fuel st u c) user
        (SMap.get? st.store.store.layers layerName)

/-! ## Client bootstrap projection (`getClientInitializeResponse`) -/

/-- Modelled from the spec: the DJB2 name hash from `utils/Hashing.ts`
(not under `src/`), as a 32-bit rolling hash of the code points. -/
def djb2 (s : String) : Nat :=
  s.data.foldl (fun h c => w32 (h * 33 ^^^ c.toNat)) 5381

/-- Modelled from the spec: `hashString(name, algorithm)` from
`utils/Hashing.ts` (not under `src/`): apply the chosen hash (`sha256`
default, `djb2`, or `none` which preserves the plaintext) to the name.
The output encodings are not observable in `src/`; decimal strings of
the hash values stand in for them. -/
def hashString (s : String) (alg : Option String) : String :=
  match alg.getD "sha256" with
  | "none" => s
  | "djb2" => toString (djb2 s)
  | _ => toString (sha256U64 s)

/-- One `feature_gates` entry of the client payload. -/
structure GateEntry where
  name : String
  value : Bool
  rule_id : String
  secondary_exposures : List SecondaryExposure
  id_type : Option String

/-- One `dynamic_configs` / `layer_configs` entry of the client payload
(`InitializeResponse`); absent optional fields are `none`. -/
structure InitializeResponse where
  name : String
  value : JSON
  group : String
  rule_id : String
  is_device_based : Bool
  secondary_exposures : List SecondaryExposure
  is_experiment_active : Option Bool
  is_user_in_experiment : Option Bool
  is_in_layer : Option Bool
  allocated_experiment_name : Option String
  explicit_parameters : Option (List String)
  undelegated_secondary_exposures : Option (List SecondaryExposure)
  group_name : Option String
  id_type : Option String

/-- The `ClientInitializeResponse` payload (the constant `sdkParams`,
`generator` and `sdkInfo` fields are omitted from the model's record;
they carry no state). -/
structure ClientInitializeResponse where
  feature_gates : SMap GateEntry
  dynamic_configs : SMap InitializeResponse
  layer_configs : SMap InitializeResponse
  has_updates : Bool
  time : Int
  evaluated_keys : SMap JSON
  hash_used : String
  user : StatsigUser

/-- `Evaluator._specToInitializeResponse(spec, res, hash)`. -/
def specToInitializeResponse (spec : ConfigSpec) (res : ConfigEvaluation)
    (hash : Option String) : InitializeResponse :=
  { name := hashString spec.name hash,
    value := if res.unsupported then .obj [] else res.json_value,
    group := res.rule_id,
    rule_id := res.rule_id,
    is_device_based := jsToLower spec.idType = "stableid",
    secondary_exposures := cleanExposures res.secondary_exposures,
    is_experiment_active := none,
    is_user_in_experiment := none,
    is_in_layer := none,
    allocated_experiment_name := none,
    explicit_parameters := res.explicit_parameters,
    undelegated_secondary_exposures := none,
    group_name :=
      match res.group_name with
      | some g => if g = "" then none else some g
      | none => none,
    id_type := none }

/-- `Evaluator._isExperimentActive(experimentConfig)`. -/
def isExperimentActiveB (config : Option ConfigSpec) : Bool :=
  match config with
  | none => false
  | some c => c.isActive == some true

/-- `Evaluator._isUserAllocatedToExperiment(user, experimentConfig)`. -/
def isUserAllocatedToExperimentB
    (evalFn : StatsigUser → ConfigSpec → ConfigEvaluation)
    (user : StatsigUser) (config : Option ConfigSpec) : Bool :=
  match config with
  | none => false
  | some c => (evalFn user c).is_experiment_group

/-- The fields of a JSON value when spread with `{...v}` (non-objects
contribute nothing). -/
def jsObjFields : JSON → SMap JSON
  | .obj m => m
  | _ => []

/-- JS object spread `{...base, ...overlay}`. -/
def jsSpread (base overlay : SMap JSON) : SMap JSON :=
  overlay.foldl (fun acc kv => SMap.set acc kv.1 kv.2) base

/-- `Evaluator.getClientInitializeResponse(user, options)`: `none` when
the store is not serving checks; otherwise the full projection.  The
source mutates its `user` argument in place (`delete
user.privateAttributes`); the first component of the result is the
caller's user object after the call. -/
def getClientInitializeResponse (ext : Externals) (fuel : Nat)
    (st : EvalState) (user : StatsigUser) (hash : Option String) :
    StatsigUser × Option ClientInitializeResponse :=
  if !(SpecStore.isServingChecks st.store) then (user, none)
  else
    let evalFn := fun u c => evalFuel ext fuel st u c
    let gates := (st.store.store.gates : List (String × ConfigSpec)).filterMap
      (fun gs =>
        if gs.2.entity = "segment" || gs.2.entity = "holdout" then none
        else
          let res := evalFn user gs.2
          some ({ name := hashString gs.1 hash,
                  value := if res.unsupported then false else res.value,
                  rule_id := res.rule_id,
                  secondary_exposures := cleanExposures res.secondary_exposures,
                  id_type := some gs.2.idType } : GateEntry))
    let configs := (st.store.store.configs : List (String × ConfigSpec)).map
      (fun cs =>
        let spec := cs.2
        let res := evalFn user spec
        let format := specToInitializeResponse spec res hash
        let format := { format with id_type := some spec.idType }
        if spec.entity ≠ "dynamic_config" && spec.entity ≠ "autotune" then
          let format := { format with
            is_user_in_experiment :=
              some (isUserAllocatedToExperimentB evalFn user (some spec)),
            is_experiment_active := some (isExperimentActiveB (some spec)) }
          if spec.hasSharedParams then
            let layerValue :=
              match SMap.get? st.store.store.experimentToLayer spec.name with
              | some layerName =>
                match SMap.get? st.store.store.layers layerName with
                | some layer => jsObjFields layer.defaultValue
                | none => []
              | none => []
            { format with
              is_in_layer := some true,
              explicit_parameters := some (spec.explicitParameters.getD []),
              value := .obj (jsSpread layerValue (jsObjFields format.value)) }
          else format
        else format)
    let layers := (st.store.store.layers : List (String × ConfigSpec)).map
      (fun ls =>
        let spec := ls.2
        let res := evalFn user spec
        let format := specToInitializeResponse spec res hash
        let format :=
          { format with explicit_parameters := some (spec.explicitParameters.getD []) }
        let format :=
          match res.config_delegate with
          | some delName =>
            if delName ≠ "" then
              let delegateSpec := SMap.get? st.store.store.configs delName
              { format with
                allocated_experiment_name := some (hashString delName hash),
                is_experiment_active := some (isExperimentActiveB delegateSpec),
                is_user_in_experiment :=
                  some (isUserAllocatedToExperimentB evalFn user delegateSpec),
                explicit_parameters :=
                  some (match delegateSpec with
                    | some ds => ds.explicitParameters.getD []
                    | none => []) }
            else format
          | none => format
        { format with
          undelegated_secondary_exposures :=
            some (cleanExposures res.undelegated_secondary_exposures) })
    let evaluatedKeys : SMap JSON :=
      (match user.userID with
        | some uid => if uid ≠ "" then [("userID", JSON.str uid)] else []
        | none => []) ++
      (match user.customIDs with
        | some cids =>
          if cids.size > 0 then
            [("customIDs", JSON.obj (cids.map (fun kv => (kv.1, JSON.str kv.2))))]
          else []
        | none => [])
    let user := { user with privateAttributes := none }
    (user,
     some
      { feature_gates := gates.foldl (fun m g => SMap.set m g.name g) [],
        dynamic_configs := configs.foldl (fun m c => SMap.set m c.name c) [],
        layer_configs := layers.foldl (fun m l => SMap.set m l.name l) [],
        has_updates := true,
        time := st.store.lastUpdateTime,
        evaluated_keys := evaluatedKeys,
        hash_used := hash.getD "sha256",
        user := user })

/-! ## Spec-side definitions (written from the specification text, to be
compared with the code-derived definitions above) -/

/-- The spec's `unitID(user, idType)`: for `userid` (lowercased) the
user's ID, otherwise the `customIDs` entry under the ID type with a
case-insensitive key match; missing values contribute the empty string
to the hash. -/
def specUnitID (u : StatsigUser) (idType : String) : String :=
  if jsToLower idType = "userid" then u.userID.getD ""
  else
    match u.customIDs with
    | some cids =>
      (match SMap.get? cids idType with
       | some v => some v
       | none => getCustomIDCaseInsensitive cids idType).getD ""
    | none => ""

/-- The spec's pass-percentage allocation decision:
`hash = sha256_u64(spec.salt + "." + (rule.salt ?? rule.id) + "." +
unitID(user, rule.idType))`, pass iff
`hash mod 10000 < rule.passPercentage * 100`. -/
def specPassDecision (user : StatsigUser) (rule : ConfigRule)
    (config : ConfigSpec) : Bool :=
  let hash := sha256U64 (config.salt ++ "." ++ (rule.salt.getD rule.id) ++
    "." ++ specUnitID user rule.idType)
  decide (((hash % 10000 : Nat) : Rat) < rule.passPercentage * 100)

/-- The spec's override lookup: the entry stored under `user.userID`
when one exists, otherwise the entry stored under the global key `""`
when one exists, otherwise nothing. -/
def specOverrideEntry {α : Type} (overrides : Option (SMap α))
    (user : StatsigUser) : Option α :=
  match overrides with
  | none => none
  | some m =>
    match user.userID.bind (fun uid => SMap.get? m uid) with
    | some v => some v
    | none => SMap.get? m ""

/-- The rejection conditions of `_process` as enumerated by the
specification: falsy `has_updates`, a payload time strictly older than
`lastUpdateTime`, a non-array `feature_gates` / `dynamic_configs` /
`layer_configs`, or a construction failure on any single spec. -/
def processRejects (st : SpecStore.State) (p : SpecsPayload) : Prop :=
  p.has_updates = false ∨
  (∃ t, p.time = some t ∧ t < st.lastUpdateTime) ∨
  p.feature_gates = none ∨ p.dynamic_configs = none ∨ p.layer_configs = none ∨
  (∃ gs r, p.feature_gates = some gs ∧ r ∈ gs ∧ ConfigSpec.fromRaw r = none) ∨
  (∃ cs r, p.dynamic_configs = some cs ∧ r ∈ cs ∧ ConfigSpec.fromRaw r = none) ∨
  (∃ ls r, p.layer_configs = some ls ∧ r ∈ ls ∧ ConfigSpec.fromRaw r = none)

/-- The catalog a spec update must publish atomically: the four maps and
`lastUpdateTime`. -/
def SpecStore.catalogOf (st : SpecStore.State) :
    SMap ConfigSpec × SMap ConfigSpec × SMap ConfigSpec × SMap String × Int :=
  (st.store.gates, st.store.configs, st.store.layers,
   st.store.experimentToLayer, st.lastUpdateTime)

/-- The `i`-th member of a family of pairwise-distinct cache keys. -/
def aKey (i : Nat) : String := String.mk (List.replicate i 'a')

/-- The first `n` members of the distinct-key family. -/
def aKeys (n : Nat) : List String := (List.range n).map aKey

/-! # Theorems -/

/-! ## Map lemmas -/

theorem SMap.get?_set_self {α : Type} (m : SMap α) (k : String) (v : α) :
    (m.set k v).get? k = some v := by
  induction m with
  | nil => simp [set, get?]
  | cons hd tl ih =>
    by_cases h : hd.1 = k <;> simp [set, get?, h, ih]

theorem SMap.get?_set_ne {α : Type} (m : SMap α) (k k' : String) (v : α)
    (h : k ≠ k') : (m.set k v).get? k' = m.get? k' := by
  induction m with
  | nil => simp [set, get?, h]
  | cons hd tl ih =>
    by_cases hh : hd.1 = k
    · simp [set, get?, hh, h]
    · by_cases hk : hd.1 = k' <;> simp [set, get?, hh, hk, ih, Ne.symm h]

theorem SMap.size_set_of_get?_none {α : Type} (m : SMap α) (k : String)
    (v : α) (h : m.get? k = none) : (m.set k v).size = m.size + 1 := by
  induction m with
  | nil => simp [set, size]
  | cons hd tl ih =>
    by_cases hh : hd.1 = k
    · simp [get?, hh] at h
    · simp only [get?, hh, if_false] at h
      have hrec := ih h
      simp only [set, size, hh, if_false, List.length_cons]
      simp only [size] at hrec
      omega

theorem SMap.size_set_le {α : Type} (m : SMap α) (k : String) (v : α) :
    (m.set k v).size ≤ m.size + 1 := by
  induction m with
  | nil => simp [set, size]
  | cons hd tl ih =>
    by_cases hh : hd.1 = k
    · simp [set, size, hh]
    · simp only [set, size, hh, if_false, List.length_cons]
      simp only [size] at ih
      omega

/-! ## `_process` control-flow lemmas -/

theorem SpecStore.process_eq_of_no_updates (st : SpecStore.State)
    (p : SpecsPayload) (h : p.has_updates = false) :
    SpecStore.process st p = (false, st) := by
  simp [SpecStore.process, h]

theorem SpecStore.process_eq_of_stale (st : SpecStore.State)
    (p : SpecsPayload) (t : Int) (hu : p.has_updates = true)
    (ht : p.time = some t) (hlt : t < st.lastUpdateTime) :
    SpecStore.process st p = (false, st) := by
  simp [SpecStore.process, hu, ht, hlt]

theorem SpecStore.buildSpecMapGo_none_of_mem (l : List RawSpec) (r : RawSpec)
    (hr : r ∈ l) (hfail : ConfigSpec.fromRaw r = none) (acc : SMap ConfigSpec) :
    SpecStore.buildSpecMapGo acc l = none := by
  induction l generalizing acc with
  | nil => cases hr
  | cons hd tl ih =>
    rcases List.mem_cons.mp hr with heq | hmem
    · subst heq
      simp [SpecStore.buildSpecMapGo, hfail]
    · unfold SpecStore.buildSpecMapGo
      cases ConfigSpec.fromRaw hd with
      | none => rfl
      | some c => exact ih hmem _

theorem SpecStore.buildSpecMap_none_of_mem (l : List RawSpec) (r : RawSpec)
    (hr : r ∈ l) (hfail : ConfigSpec.fromRaw r = none) :
    SpecStore.buildSpecMap l = none :=
  SpecStore.buildSpecMapGo_none_of_mem l r hr hfail []

theorem SpecStore.process_eq_of_bad_arrays (st : SpecStore.State)
    (p : SpecsPayload) (hu : p.has_updates = true)
    (ht : ∀ t, p.time = some t → ¬t < st.lastUpdateTime)
    (harr : p.feature_gates = none ∨ p.dynamic_configs = none ∨
      p.layer_configs = none) :
    SpecStore.process st p = (false, SpecStore.withSampling st p) := by
  unfold SpecStore.process
  have htc : (match p.time with
      | some t => decide (t < st.lastUpdateTime) | none => false) = false := by
    rcases htm : p.time with _ | t
    · rfl
    · simpa using ht t htm
  rcases harr with h | h | h <;>
    rcases hfg : p.feature_gates with _ | gs <;>
    rcases hdc : p.dynamic_configs with _ | cs <;>
    rcases hlc : p.layer_configs with _ | ls <;>
    simp_all [hu, htc]

theorem SpecStore.process_eq_of_build_fail (st : SpecStore.State)
    (p : SpecsPayload) (gs cs ls : List RawSpec)
    (hu : p.has_updates = true)
    (ht : ∀ t, p.time = some t → ¬t < st.lastUpdateTime)
    (hfg : p.feature_gates = some gs) (hdc : p.dynamic_configs = some cs)
    (hlc : p.layer_configs = some ls)
    (hbuild : SpecStore.buildSpecMap gs = none ∨
      SpecStore.buildSpecMap cs = none ∨ SpecStore.buildSpecMap ls = none) :
    SpecStore.process st p = (false, SpecStore.withSampling st p) := by
  unfold SpecStore.process
  have htc : (match p.time with
      | some t => decide (t < st.lastUpdateTime) | none => false) = false := by
    rcases htm : p.time with _ | t
    · rfl
    · simpa using ht t htm
  rcases hbuild with h | h | h <;>
    rcases hg : SpecStore.buildSpecMap gs with _ | G <;>
    rcases hc : SpecStore.buildSpecMap cs with _ | C <;>
    rcases hl : SpecStore.buildSpecMap ls with _ | L <;>
    simp_all [hu, htc, hfg, hdc, hlc]

theorem SpecStore.process_eq_of_success (st : SpecStore.State)
    (p : SpecsPayload) (gs cs ls : List RawSpec)
    (G C L : SMap ConfigSpec)
    (hu : p.has_updates = true)
    (ht : ∀ t, p.time = some t → ¬t < st.lastUpdateTime)
    (hfg : p.feature_gates = some gs) (hdc : p.dynamic_configs = some cs)
    (hlc : p.layer_configs = some ls)
    (hg : SpecStore.buildSpecMap gs = some G)
    (hc : SpecStore.buildSpecMap cs = some C)
    (hl : SpecStore.buildSpecMap ls = some L) :
    SpecStore.process st p =
      (true,
       { SpecStore.withSampling st p with
          store := { (SpecStore.withSampling st p).store with
            gates := G, configs := C, layers := L,
            experimentToLayer := SpecStore.reverseLayerMapping p.layers },
          lastUpdateTime := p.time.getD st.lastUpdateTime }) := by
  unfold SpecStore.process
  have htc : (match p.time with
      | some t => decide (t < st.lastUpdateTime) | none => false) = false := by
    rcases htm : p.time with _ | t
    · rfl
    · simpa using ht t htm
  simp [hu, htc, hfg, hdc, hlc, hg, hc, hl, SpecStore.withSampling]

/-- The catalog ignores the sampling-rate update. -/
theorem SpecStore.catalogOf_withSampling (st : SpecStore.State)
    (p : SpecsPayload) :
    SpecStore.catalogOf (SpecStore.withSampling st p) =
      SpecStore.catalogOf st := rfl

/-- The unconditional form of `lastUpdateTime` monotonicity: `_process`
never decreases it. -/
theorem SpecStore.process_lastUpdateTime_le (st : SpecStore.State)
    (p : SpecsPayload) :
    st.lastUpdateTime ≤ (SpecStore.process st p).2.lastUpdateTime := by
  by_cases hu : p.has_updates = true
  · by_cases hstale : ∃ t, p.time = some t ∧ t < st.lastUpdateTime
    · obtain ⟨t, htm, hlt⟩ := hstale
      rw [SpecStore.process_eq_of_stale st p t hu htm hlt]
    · have ht : ∀ t, p.time = some t → ¬t < st.lastUpdateTime := by
        intro t htm hlt
        exact hstale ⟨t, htm, hlt⟩
      rcases hfg : p.feature_gates with _ | gs
      · rw [SpecStore.process_eq_of_bad_arrays st p hu ht (Or.inl hfg)]
        simp [SpecStore.withSampling]
      · rcases hdc : p.dynamic_configs with _ | cs
        · rw [SpecStore.process_eq_of_bad_arrays st p hu ht (Or.inr (Or.inl hdc))]
          simp [SpecStore.withSampling]
        · rcases hlc : p.layer_configs with _ | ls
          · rw [SpecStore.process_eq_of_bad_arrays st p hu ht
              (Or.inr (Or.inr hlc))]
            simp [SpecStore.withSampling]
          · rcases hg : SpecStore.buildSpecMap gs with _ | G
            · rw [SpecStore.process_eq_of_build_fail st p gs cs ls hu ht hfg
                hdc hlc (Or.inl hg)]
              simp [SpecStore.withSampling]
            · rcases hc : SpecStore.buildSpecMap cs with _ | C
              · rw [SpecStore.process_eq_of_build_fail st p gs cs ls hu ht hfg
                  hdc hlc (Or.inr (Or.inl hc))]
                simp [SpecStore.withSampling]
              · rcases hl : SpecStore.buildSpecMap ls with _ | L
                · rw [SpecStore.process_eq_of_build_fail st p gs cs ls hu ht
                    hfg hdc hlc (Or.inr (Or.inr hl))]
                  simp [SpecStore.withSampling]
                · rw [SpecStore.process_eq_of_success st p gs cs ls G C L hu ht
                    hfg hdc hlc hg hc hl]
                  rcases htm : p.time with _ | t
                  · simp
                  · simp only [Option.getD_some]
                    have := ht t htm
                    omega
  · have hu' : p.has_updates = false := by simpa using hu
    rw [SpecStore.process_eq_of_no_updates st p hu']

/-- Any branch of `_process` that returns `false` leaves the four maps and
`lastUpdateTime` unchanged. -/
theorem SpecStore.process_false_catalog_unchanged (st : SpecStore.State)
    (p : SpecsPayload) (h : (SpecStore.process st p).1 = false) :
    SpecStore.catalogOf (SpecStore.process st p).2 = SpecStore.catalogOf st := by
  by_cases hu : p.has_updates = true
  · by_cases hstale : ∃ t, p.time = some t ∧ t < st.lastUpdateTime
    · obtain ⟨t, htm, hlt⟩ := hstale
      rw [SpecStore.process_eq_of_stale st p t hu htm hlt]
    · have ht : ∀ t, p.time = some t → ¬t < st.lastUpdateTime := by
        intro t htm hlt
        exact hstale ⟨t, htm, hlt⟩
      rcases hfg : p.feature_gates with _ | gs
      · rw [SpecStore.process_eq_of_bad_arrays st p hu ht (Or.inl hfg)]
        exact SpecStore.catalogOf_withSampling st p
      · rcases hdc : p.dynamic_configs with _ | cs
        · rw [SpecStore.process_eq_of_bad_arrays st p hu ht (Or.inr (Or.inl hdc))]
          exact SpecStore.catalogOf_withSampling st p
        · rcases hlc : p.layer_configs with _ | ls
          · rw [SpecStore.process_eq_of_bad_arrays st p hu ht
              (Or.inr (Or.inr hlc))]
            exact SpecStore.catalogOf_withSampling st p
          · rcases hg : SpecStore.buildSpecMap gs with _ | G
            · rw [SpecStore.process_eq_of_build_fail st p gs cs ls hu ht hfg
                hdc hlc (Or.inl hg)]
              exact SpecStore.catalogOf_withSampling st p
            · rcases hc : SpecStore.buildSpecMap cs with _ | C
              · rw [SpecStore.process_eq_of_build_fail st p gs cs ls hu ht hfg
                  hdc hlc (Or.inr (Or.inl hc))]
                exact SpecStore.catalogOf_withSampling st p
              · rcases hl : SpecStore.buildSpecMap ls with _ | L
                · rw [SpecStore.process_eq_of_build_fail st p gs cs ls hu ht
                    hfg hdc hlc (Or.inr (Or.inr hl))]
                  exact SpecStore.catalogOf_withSampling st p
                · rw [SpecStore.process_eq_of_success st p gs cs ls G C L hu ht
                    hfg hdc hlc hg hc hl] at h
                  simp at h
  · have hu' : p.has_updates = false := by simpa using hu
    rw [SpecStore.process_eq_of_no_updates st p hu']

/-! ## C2 -/

/-- C2: for every store state and payload, when `_process` returns `true`
the store's `lastUpdateTime` after the call is at least its value before
the call (so `lastUpdateTime` is monotonically non-decreasing across any
sequence of `_process` calls). -/
theorem SpecStore.process_lastUpdateTime_monotone (st : SpecStore.State)
    (p : SpecsPayload) (_h : (SpecStore.process st p).1 = true) :
    st.lastUpdateTime ≤ (SpecStore.process st p).2.lastUpdateTime :=
  SpecStore.process_lastUpdateTime_le st p

/-- Witness for C2: a concrete accepted payload advancing the time. -/
theorem SpecStore.process_lastUpdateTime_monotone_witness :
    (SpecStore.process
      ⟨⟨[], [], [], [], []⟩, 0, 0, "Uninitialized", ⟨0, 0, 0, 10000⟩⟩
      ⟨true, some 5, some [], some [], some [], none, none⟩).1 = true ∧
    (0 : Int) ≤ (SpecStore.process
      ⟨⟨[], [], [], [], []⟩, 0, 0, "Uninitialized", ⟨0, 0, 0, 10000⟩⟩
      ⟨true, some 5, some [], some [], some [], none, none⟩).2.lastUpdateTime :=
  ⟨by decide,
   SpecStore.process_lastUpdateTime_monotone
     ⟨⟨[], [], [], [], []⟩, 0, 0, "Uninitialized", ⟨0, 0, 0, 10000⟩⟩
     ⟨true, some 5, some [], some [], some [], none, none⟩ (by decide)⟩

/-! ## C1 -/

/-- C1: for every store state and payload, if `_process` rejects the
payload (falsy `has_updates`, a payload time strictly below
`lastUpdateTime`, a non-array `feature_gates` / `dynamic_configs` /
`layer_configs`, or a construction failure on any single spec) then it
returns `false` and the four maps (`gates`, `configs`, `layers`,
`experimentToLayer`) and `lastUpdateTime` are unchanged. -/
theorem SpecStore.process_reject_unchanged (st : SpecStore.State)
    (p : SpecsPayload) (h : processRejects st p) :
    (SpecStore.process st p).1 = false ∧
    SpecStore.catalogOf (SpecStore.process st p).2 = SpecStore.catalogOf st := by
  have hfalse : (SpecStore.process st p).1 = false := by
    by_cases hu : p.has_updates = true
    · by_cases hstale : ∃ t, p.time = some t ∧ t < st.lastUpdateTime
      · obtain ⟨t, htm, hlt⟩ := hstale
        rw [SpecStore.process_eq_of_stale st p t hu htm hlt]
      · have ht : ∀ t, p.time = some t → ¬t < st.lastUpdateTime :=
          fun t htm hlt => hstale ⟨t, htm, hlt⟩
        rcases h with h | h | h | h | h | h | h | h
        · rw [hu] at h
          cases h
        · obtain ⟨t, htm, hlt⟩ := h
          exact absurd hlt (ht t htm)
        · rw [SpecStore.process_eq_of_bad_arrays st p hu ht (Or.inl h)]
        · rw [SpecStore.process_eq_of_bad_arrays st p hu ht (Or.inr (Or.inl h))]
        · rw [SpecStore.process_eq_of_bad_arrays st p hu ht (Or.inr (Or.inr h))]
        · obtain ⟨gs, r, hfg, hr, hfail⟩ := h
          have hbuild := SpecStore.buildSpecMap_none_of_mem gs r hr hfail
          rcases hdc : p.dynamic_configs with _ | cs
          · rw [SpecStore.process_eq_of_bad_arrays st p hu ht
              (Or.inr (Or.inl hdc))]
          · rcases hlc : p.layer_configs with _ | ls
            · rw [SpecStore.process_eq_of_bad_arrays st p hu ht
                (Or.inr (Or.inr hlc))]
            · rw [SpecStore.process_eq_of_build_fail st p gs cs ls hu ht hfg
                hdc hlc (Or.inl hbuild)]
        · obtain ⟨cs, r, hdc, hr, hfail⟩ := h
          have hbuild := SpecStore.buildSpecMap_none_of_mem cs r hr hfail
          rcases hfg : p.feature_gates with _ | gs
          · rw [SpecStore.process_eq_of_bad_arrays st p hu ht (Or.inl hfg)]
          · rcases hlc : p.layer_configs with _ | ls
            · rw [SpecStore.process_eq_of_bad_arrays st p hu ht
                (Or.inr (Or.inr hlc))]
            · rw [SpecStore.process_eq_of_build_fail st p gs cs ls hu ht hfg
                hdc hlc (Or.inr (Or.inl hbuild))]
        · obtain ⟨ls, r, hlc, hr, hfail⟩ := h
          have hbuild := SpecStore.buildSpecMap_none_of_mem ls r hr hfail
          rcases hfg : p.feature_gates with _ | gs
          · rw [SpecStore.process_eq_of_bad_arrays st p hu ht (Or.inl hfg)]
          · rcases hdc : p.dynamic_configs with _ | cs
            · rw [SpecStore.process_eq_of_bad_arrays st p hu ht
                (Or.inr (Or.inl hdc))]
            · rw [SpecStore.process_eq_of_build_fail st p gs cs ls hu ht hfg
                hdc hlc (Or.inr (Or.inr hbuild))]
    · rw [SpecStore.process_eq_of_no_updates st p (by simpa using hu)]
  exact ⟨hfalse, SpecStore.process_false_catalog_unchanged st p hfalse⟩

/-- Witness for C1: a concrete payload with falsy `has_updates` is
rejected and leaves the catalog unchanged. -/
theorem SpecStore.process_reject_unchanged_witness :
    processRejects
      ⟨⟨[], [], [], [], []⟩, 7, 7, "Network", ⟨0, 0, 0, 10000⟩⟩
      ⟨false, some 9, some [], some [], some [], none, none⟩ ∧
    ((SpecStore.process
        ⟨⟨[], [], [], [], []⟩, 7, 7, "Network", ⟨0, 0, 0, 10000⟩⟩
        ⟨false, some 9, some [], some [], some [], none, none⟩).1 = false ∧
      SpecStore.catalogOf (SpecStore.process
        ⟨⟨[], [], [], [], []⟩, 7, 7, "Network", ⟨0, 0, 0, 10000⟩⟩
        ⟨false, some 9, some [], some [], some [], none, none⟩).2 =
      SpecStore.catalogOf
        ⟨⟨[], [], [], [], []⟩, 7, 7, "Network", ⟨0, 0, 0, 10000⟩⟩) :=
  ⟨Or.inl rfl,
   SpecStore.process_reject_unchanged
     ⟨⟨[], [], [], [], []⟩, 7, 7, "Network", ⟨0, 0, 0, 10000⟩⟩
     ⟨false, some 9, some [], some [], some [], none, none⟩ (Or.inl rfl)⟩

/-! ## C8 -/

/-- C8: feeding the same parsed bootstrap payload to
`syncBootstrapValues` twice leaves the store with the same catalog (the
four maps and `lastUpdateTime`) as feeding it once. -/
theorem SpecStore.syncBootstrapValues_idempotent (st : SpecStore.State)
    (p : SpecsPayload) :
    SpecStore.catalogOf
      (SpecStore.syncBootstrapValues
        (SpecStore.syncBootstrapValues st p).2 p).2 =
    SpecStore.catalogOf (SpecStore.syncBootstrapValues st p).2 := by
  unfold SpecStore.syncBootstrapValues
  by_cases hu : p.has_updates = true
  · by_cases hstale : ∃ t, p.time = some t ∧ t < st.lastUpdateTime
    · obtain ⟨t, htm, hlt⟩ := hstale
      rw [SpecStore.process_eq_of_stale st p t hu htm hlt]
      rw [SpecStore.process_eq_of_stale st p t hu htm hlt]
    · have ht : ∀ t, p.time = some t → ¬t < st.lastUpdateTime :=
        fun t htm hlt => hstale ⟨t, htm, hlt⟩
      rcases hfg : p.feature_gates with _ | gs
      · rw [SpecStore.process_eq_of_bad_arrays st p hu ht (Or.inl hfg)]
        rw [SpecStore.process_eq_of_bad_arrays (SpecStore.withSampling st p) p
          hu ht (Or.inl hfg)]
        rfl
      · rcases hdc : p.dynamic_configs with _ | cs
        · rw [SpecStore.process_eq_of_bad_arrays st p hu ht
            (Or.inr (Or.inl hdc))]
          rw [SpecStore.process_eq_of_bad_arrays (SpecStore.withSampling st p)
            p hu ht (Or.inr (Or.inl hdc))]
          rfl
        · rcases hlc : p.layer_configs with _ | ls
          · rw [SpecStore.process_eq_of_bad_arrays st p hu ht
              (Or.inr (Or.inr hlc))]
            rw [SpecStore.process_eq_of_bad_arrays (SpecStore.withSampling st p)
              p hu ht (Or.inr (Or.inr hlc))]
            rfl
          · rcases hg : SpecStore.buildSpecMap gs with _ | G
            · rw [SpecStore.process_eq_of_build_fail st p gs cs ls hu ht hfg
                hdc hlc (Or.inl hg)]
              rw [SpecStore.process_eq_of_build_fail (SpecStore.withSampling st p)
                p gs cs ls hu ht hfg hdc hlc (Or.inl hg)]
              rfl
            · rcases hc : SpecStore.buildSpecMap cs with _ | C
              · rw [SpecStore.process_eq_of_build_fail st p gs cs ls hu ht hfg
                  hdc hlc (Or.inr (Or.inl hc))]
                rw [SpecStore.process_eq_of_build_fail
                  (SpecStore.withSampling st p) p gs cs ls hu ht hfg hdc hlc
                  (Or.inr (Or.inl hc))]
                rfl
              · rcases hl : SpecStore.buildSpecMap ls with _ | L
                · rw [SpecStore.process_eq_of_build_fail st p gs cs ls hu ht
                    hfg hdc hlc (Or.inr (Or.inr hl))]
                  rw [SpecStore.process_eq_of_build_fail
                    (SpecStore.withSampling st p) p gs cs ls hu ht hfg hdc hlc
                    (Or.inr (Or.inr hl))]
                  rfl
                · rw [SpecStore.process_eq_of_success st p gs cs ls G C L hu ht
                    hfg hdc hlc hg hc hl]
                  have ht2 : ∀ t, p.time = some t →
                      ¬t < (p.time.getD st.lastUpdateTime) := by
                    intro t htm
                    rw [htm]
                    simp
                  rw [SpecStore.process_eq_of_success _ p gs cs ls G C L hu ht2
                    hfg hdc hlc hg hc hl]
                  rcases htm : p.time with _ | t <;>
                    simp [SpecStore.catalogOf, SpecStore.withSampling, htm]
  · have hu' : p.has_updates = false := by simpa using hu
    rw [SpecStore.process_eq_of_no_updates st p hu']
    rw [SpecStore.process_eq_of_no_updates st p hu']

/-! ## C6 -/

/-- C6 counterexample: with a concrete one-list store and a response
missing the `Content-Length` header, the fetch reports a failure but the
list is NOT dropped from the store (it is returned unchanged), refuting
the claim that a missing header drops the list.  The `delete` branch in
the source is unreachable: `typeof parseInt(x)` is `'number'` even for
`NaN`, and the missing-header `throw` happens before it. -/
theorem genFetchIDList_missing_header_keeps_list :
    genFetchIDListProcess [("mylist", ⟨[], some 0, "u", "f", 0⟩)] "mylist"
        ⟨none, ""⟩ =
      ([("mylist", ⟨[], some 0, "u", "f", 0⟩)], true) ∧
    SMap.get? (genFetchIDListProcess [("mylist", ⟨[], some 0, "u", "f", 0⟩)]
        "mylist" ⟨none, ""⟩).1 "mylist" = some ⟨[], some 0, "u", "f", 0⟩ := by
  constructor
  · rfl
  · simp [genFetchIDListProcess, SMap.get?]

/-- C6 amended: the `parseInt` of the `Content-Length` header is added to
the list's `readBytes` before the body is handed to
`IDListUtil.updateIdList`; when the header is missing the fetch aborts
with the failure reported (warned) and the ID-list store is unchanged
(the list is not dropped). -/
theorem genFetchIDList_contentLength_behaviour (lists : SMap IDList)
    (name : String) (res : IDListFetchResponse) :
    (res.contentLength = none →
      genFetchIDListProcess lists name res = (lists, true)) ∧
    (∀ s l n, res.contentLength = some s → SMap.get? lists name = some l →
      parseIntJs s = some n →
      genFetchIDListProcess lists name res =
        (updateIdList
          (SMap.set lists name { l with readBytes := jsAdd l.readBytes (some n) })
          name res.body, false)) := by
  constructor
  · intro h
    simp [genFetchIDListProcess, h]
  · intro s l n hcl hget hparse
    simp [genFetchIDListProcess, hcl, hget, hparse]

/-- Witness for the C6 theorem, exercising both the missing-header and
the numeric-header paths at concrete inputs. -/
theorem genFetchIDList_contentLength_behaviour_witness :
    genFetchIDListProcess [] "x" ⟨none, "b"⟩ = ([], true) ∧
    genFetchIDListProcess [("x", ⟨[], some 2, "u", "f", 0⟩)] "x"
        ⟨some "3", ""⟩ =
      (updateIdList
        (SMap.set [("x", ⟨[], some 2, "u", "f", 0⟩)] "x"
          { ids := [], readBytes := jsAdd (some 2) (some 3), url := "u",
            fileID := "f", creationTime := 0 }) "x" "", false) :=
  ⟨(genFetchIDList_contentLength_behaviour [] "x" ⟨none, "b"⟩).1 rfl,
   (genFetchIDList_contentLength_behaviour
      [("x", ⟨[], some 2, "u", "f", 0⟩)] "x" ⟨some "3", ""⟩).2 "3"
     ⟨[], some 2, "u", "f", 0⟩ 3 rfl (by simp [SMap.get?]) (by decide)⟩

/-! ## C7 -/

theorem SMap.get?_eq_none_of_forall_ne {α : Type} (m : SMap α) (k : String)
    (h : ∀ kv ∈ SMap.entries m, kv.1 ≠ k) : m.get? k = none := by
  induction m with
  | nil => rfl
  | cons hd tl ih =>
    have hhd : hd.1 ≠ k := h hd (List.mem_cons_self hd tl)
    simp only [get?, hhd, if_false]
    exact ih (fun kv hkv => h kv (List.mem_cons_of_mem hd hkv))

theorem aKey_injective : Function.Injective aKey := by
  intro i j hij
  have : (aKey i).length = (aKey j).length := by rw [hij]
  simpa [aKey, String.length] using this

/-- `computeUserHash` always returns the SHA-256-derived hash of its
argument, and preserves the cache-correctness invariant: the memoization
is semantically transparent, justifying the pure `sha256U64` in the
evaluator embedding. -/
theorem hashTableOk_set (t : HashTable) (s : String) (hok : HashTableOk t) :
    HashTableOk (SMap.set t s (sha256U64 s)) := by
  intro k v hget
  by_cases hk : s = k
  · subst hk
    rw [SMap.get?_set_self] at hget
    injection hget with h
    exact h.symm
  · rw [SMap.get?_set_ne t s k _ hk] at hget
    exact hok k v hget

theorem hashTableOk_nil : HashTableOk ([] : HashTable) := by
  intro k v h
  simp [SMap.get?] at h

theorem computeUserHash_value (t : HashTable) (s : String)
    (hok : HashTableOk t) :
    (computeUserHash t s).1 = sha256U64 s ∧
    HashTableOk (computeUserHash t s).2 := by
  unfold computeUserHash
  rcases hget : SMap.get? t s with _ | v
  all_goals dsimp only
  · refine ⟨rfl, ?_⟩
    by_cases hsz : SMap.size t > 100000
    · rw [if_pos hsz]
      exact hashTableOk_set [] s hashTableOk_nil
    · rw [if_neg hsz]
      exact hashTableOk_set t s hok
  · have hv : v = sha256U64 s := hok s v hget
    by_cases hz : v ≠ 0
    · rw [if_pos hz]
      exact ⟨hv, hok⟩
    · rw [if_neg hz]
      refine ⟨rfl, ?_⟩
      by_cases hsz : SMap.size t > 100000
      · rw [if_pos hsz]
        exact hashTableOk_set [] s hashTableOk_nil
      · rw [if_neg hsz]
        exact hashTableOk_set t s hok

/-- A miss on a cache at or below 100000 entries appends the new entry
without clearing. -/
theorem computeUserHash_fresh_eq (t : HashTable) (s : String)
    (hmiss : SMap.get? t s = none) (hsize : SMap.size t ≤ 100000) :
    (computeUserHash t s).2 = SMap.set t s (sha256U64 s) := by
  unfold computeUserHash
  rw [hmiss]
  have h : ¬SMap.size t > 100000 := by omega
  rw [if_neg h]

/-- Running pairwise-distinct fresh keys grows the cache by exactly one
entry per call, as long as the bound 100001 is not crossed. -/
theorem runHashCalls_size_fresh (L : List String) : ∀ t : HashTable,
    L.Nodup → (∀ s ∈ L, SMap.get? t s = none) →
    SMap.size t + L.length ≤ 100001 →
    SMap.size (runHashCalls t L) = SMap.size t + L.length := by
  induction L with
  | nil => intro t _ _ _; simp [runHashCalls]
  | cons s rest ih =>
    intro t hnodup hfresh hbound
    have hmiss : SMap.get? t s = none := hfresh s (List.mem_cons_self s rest)
    have hsize : SMap.size t ≤ 100000 := by
      simp only [List.length_cons] at hbound
      omega
    have hstep : (computeUserHash t s).2 = SMap.set t s (sha256U64 s) :=
      computeUserHash_fresh_eq t s hmiss hsize
    have hsz1 : SMap.size (SMap.set t s (sha256U64 s)) = SMap.size t + 1 :=
      SMap.size_set_of_get?_none t s _ hmiss
    have hrun : runHashCalls t (s :: rest) =
        runHashCalls (computeUserHash t s).2 rest := rfl
    rw [hrun, hstep]
    have hfresh2 : ∀ s2 ∈ rest, SMap.get? (SMap.set t s (sha256U64 s)) s2 = none := by
      intro s2 hs2
      have hne : s ≠ s2 := by
        intro heq
        subst heq
        exact (List.nodup_cons.mp hnodup).1 hs2
      rw [SMap.get?_set_ne t s s2 _ hne]
      exact hfresh s2 (List.mem_cons_of_mem s hs2)
    have hbound2 : SMap.size (SMap.set t s (sha256U64 s)) + rest.length ≤ 100001 := by
      rw [hsz1]
      simp only [List.length_cons] at hbound
      omega
    rw [ih _ (List.nodup_cons.mp hnodup).2 hfresh2 hbound2, hsz1,
      List.length_cons]
    omega

theorem aKeys_nodup (n : Nat) : (aKeys n).Nodup :=
  (List.nodup_range n).map aKey_injective

theorem aKeys_length (n : Nat) : (aKeys n).length = n := by
  simp [aKeys]

/-- C7 counterexample: running `computeUserHash` on 100001 pairwise
distinct fresh keys from the empty cache leaves the cache with 100001
entries — strictly more than 100,000 — refuting the claimed bound (the
source clears only when `size > 100000` is observed BEFORE an insertion,
so the size reaches 100001). -/
theorem computeUserHash_cache_exceeds_100000 :
    SMap.size (runHashCalls [] (aKeys 100001)) = 100001 ∧
    100000 < SMap.size (runHashCalls [] (aKeys 100001)) := by
  have h := runHashCalls_size_fresh (aKeys 100001) [] (aKeys_nodup 100001)
    (fun s _ => rfl) (by rw [aKeys_length]; exact Nat.le_refl _)
  rw [aKeys_length] at h
  have hz : SMap.size ([] : HashTable) = 0 := rfl
  rw [hz] at h
  omega

/-- C7 amended: the cache size never exceeds 100,001 entries — a call
that finds the cache above 100,000 entries clears it before storing the
new entry (and a cleared-then-restarted cache holds exactly the new
entry). -/
theorem computeUserHash_cache_bound :
    (∀ L : List String, SMap.size (runHashCalls [] L) ≤ 100001) ∧
    (∀ (t : HashTable) (s : String), SMap.size t > 100000 →
      SMap.get? t s = none →
      (computeUserHash t s).2 = [(s, sha256U64 s)]) := by
  constructor
  · have hstep : ∀ (t : HashTable) (s : String), SMap.size t ≤ 100001 →
        SMap.size (computeUserHash t s).2 ≤ 100001 := by
      intro t s hsize
      have hone : SMap.size (SMap.set ([] : HashTable) s (sha256U64 s)) = 1 := rfl
      unfold computeUserHash
      rcases hget : SMap.get? t s with _ | v
      all_goals dsimp only
      · by_cases hsz : SMap.size t > 100000
        · rw [if_pos hsz]
          try dsimp only
          omega
        · rw [if_neg hsz]
          have := SMap.size_set_le t s (sha256U64 s)
          try dsimp only
          omega
      · by_cases hz : v ≠ 0
        · rw [if_pos hz]
          exact hsize
        · rw [if_neg hz]
          by_cases hsz : SMap.size t > 100000
          · rw [if_pos hsz]
            try dsimp only
            omega
          · rw [if_neg hsz]
            have := SMap.size_set_le t s (sha256U64 s)
            try dsimp only
            omega
    intro L
    have hgen : ∀ (L : List String) (t : HashTable), SMap.size t ≤ 100001 →
        SMap.size (runHashCalls t L) ≤ 100001 := by
      intro L
      induction L with
      | nil => intro t ht; simpa [runHashCalls] using ht
      | cons s rest ih =>
        intro t ht
        have h1 : SMap.size (computeUserHash t s).2 ≤ 100001 := hstep t s ht
        exact ih _ h1
    exact hgen L [] (by exact Nat.zero_le _)
  · intro t s hsize hmiss
    unfold computeUserHash
    rw [hmiss]
    rw [if_pos hsize]
    rfl

/-- Witness for the C7 theorem: a concrete over-full cache (100001
distinct keys mapping to `0`) is cleared and restarted by the next
fresh-key call. -/
theorem computeUserHash_cache_bound_witness :
    SMap.size (runHashCalls [] ["a"]) ≤ 100001 ∧
    (computeUserHash ((aKeys 100001).map (fun s => (s, 0))) (aKey 100001)).2 =
      [(aKey 100001, sha256U64 (aKey 100001))] := by
  constructor
  · exact computeUserHash_cache_bound.1 ["a"]
  · apply computeUserHash_cache_bound.2
    · show SMap.size ((aKeys 100001).map (fun s => (s, 0))) > 100000
      simp [SMap.size, aKeys]
    · apply SMap.get?_eq_none_of_forall_ne
      intro kv hkv
      simp only [SMap.entries, List.mem_map] at hkv
      obtain ⟨s, hs, hkv⟩ := hkv
      simp only [aKeys, List.mem_map] at hs
      obtain ⟨i, hi, hsi⟩ := hs
      subst hsi
      rw [← hkv]
      intro heq
      have := aKey_injective heq
      subst this
      simp at hi

/-! ## C3 -/

/-- The code's `_getUnitID(user, idType) ?? ''` agrees with the spec's
`unitID(user, idType)` (missing values become the empty string in the
hash). -/
theorem getUnitID_getD_eq_specUnitID (u : StatsigUser) (idType : String) :
    (getUnitID u idType).getD "" = specUnitID u idType := by
  unfold getUnitID specUnitID
  by_cases h : jsToLower idType = "userid"
  · simp [h]
  · simp only [h, if_neg, ne_eq, not_false_eq_true, if_true, if_false]
    rcases u.customIDs with _ | cids
    · rfl
    · rcases SMap.get? cids idType with _ | v
      · rfl
      · rfl

/-- C3: the pass-percentage allocation decision equals the spec formula —
the big-endian unsigned 64-bit SHA-256 prefix of
`spec.salt + "." + (rule.salt ?? rule.id) + "." + unitID(user, rule.idType)`,
reduced mod 10000 and compared with `passPercentage * 100` — and
consequently no user passes at `passPercentage = 0` and every user passes
at `passPercentage = 100`. -/
theorem evalPassPercent_matches_spec (user : StatsigUser) (rule : ConfigRule)
    (config : ConfigSpec) :
    evalPassPercent user rule config = specPassDecision user rule config ∧
    (rule.passPercentage = 0 → evalPassPercent user rule config = false) ∧
    (rule.passPercentage = 100 → evalPassPercent user rule config = true) := by
  refine ⟨?_, ?_, ?_⟩
  · unfold evalPassPercent specPassDecision
    rw [getUnitID_getD_eq_specUnitID]
  · intro h
    unfold evalPassPercent
    simp only [h, zero_mul, decide_eq_false_iff_not, not_lt]
    positivity
  · intro h
    unfold evalPassPercent
    simp only [h, decide_eq_true_eq]
    have hmod : (sha256U64 (config.salt ++ "." ++ (rule.salt.getD rule.id) ++
        "." ++ ((getUnitID user rule.idType).getD ""))) % 10000 < 10000 :=
      Nat.mod_lt _ (by norm_num)
    have : ((sha256U64 (config.salt ++ "." ++ (rule.salt.getD rule.id) ++
        "." ++ ((getUnitID user rule.idType).getD "")) % 10000 : Nat) : Rat) <
        (10000 : Rat) := by
      exact_mod_cast hmod
    calc ((sha256U64 (config.salt ++ "." ++ (rule.salt.getD rule.id) ++
        "." ++ ((getUnitID user rule.idType).getD "")) % 10000 : Nat) : Rat)
        < (10000 : Rat) := this
      _ = (100 : Rat) * 100 := by norm_num

/-- Witness for C3: a rule at `passPercentage = 0` fails and a rule at
`passPercentage = 100` passes, at a concrete user and spec. -/
theorem evalPassPercent_matches_spec_witness :
    evalPassPercent
      ⟨some "u1", none, none, none, none, none, none, none, none, none, none⟩
      ⟨"r", some "r", 0, .obj [], "userID", none, none, none, []⟩
      ⟨"c", "feature_gate", true, "s", .obj [], "userID", [], none, false,
        none, none⟩ = false ∧
    evalPassPercent
      ⟨some "u1", none, none, none, none, none, none, none, none, none, none⟩
      ⟨"r", some "r", 100, .obj [], "userID", none, none, none, []⟩
      ⟨"c", "feature_gate", true, "s", .obj [], "userID", [], none, false,
        none, none⟩ = true :=
  ⟨(evalPassPercent_matches_spec _ _ _).2.1 rfl,
   (evalPassPercent_matches_spec _ _ _).2.2 rfl⟩

/-! ## C9 -/

/-- The `_evalRule` condition loop, characterized when no condition is
unsupported: it visits every condition, ANDs the passes and concatenates
the exposures in declaration order. -/
theorem evalRuleCondLoop_spec (f : ConfigCondition → CondResult)
    (cs : List ConfigCondition)
    (h : ∀ c ∈ cs, (f c).unsupported = false) :
    ∀ (pass : Bool) (acc : List SecondaryExposure),
    evalRuleCondLoop f cs pass acc =
      some (pass && cs.all (fun c => (f c).passes),
        acc ++ cs.flatMap (fun c => ((f c).exposures).getD [])) := by
  induction cs with
  | nil => intro pass acc; simp [evalRuleCondLoop]
  | cons c rest ih =>
    intro pass acc
    have hc : (f c).unsupported = false := h c (List.mem_cons_self c rest)
    have hrest : ∀ c2 ∈ rest, (f c2).unsupported = false :=
      fun c2 hc2 => h c2 (List.mem_cons_of_mem c hc2)
    unfold evalRuleCondLoop
    simp only [hc, Bool.false_eq_true, if_false]
    rw [ih hrest]
    rcases hexp : (f c).exposures with _ | es <;>
      rcases hp : (f c).passes <;>
      simp [hexp, hp, List.all_cons, List.flatMap_cons]

/-- C9: `_evalRule` evaluates every condition with no short-circuiting on
failure: when no condition is unsupported, the result is supported, its
`secondary_exposures` are the concatenation, in declaration order, of the
exposures contributed by every condition (including conditions after one
that already failed), and its value is true iff no condition failed. -/
theorem evalRule_no_short_circuit (ext : Externals) (st : EvalState)
    (gateFn : StatsigUser → String → ConfigEvaluation) (user : StatsigUser)
    (rule : ConfigRule)
    (h : ∀ c ∈ rule.conditions,
      (evalConditionB ext st gateFn user c).unsupported = false) :
    (evalRuleB ext st gateFn user rule).unsupported = false ∧
    (evalRuleB ext st gateFn user rule).secondary_exposures =
      rule.conditions.flatMap
        (fun c => ((evalConditionB ext st gateFn user c).exposures).getD []) ∧
    ((evalRuleB ext st gateFn user rule).value = true ↔
      ∀ c ∈ rule.conditions,
        (evalConditionB ext st gateFn user c).passes = true) := by
  unfold evalRuleB
  rw [evalRuleCondLoop_spec _ _ h true []]
  simp [ConfigEvaluation.make, List.all_eq_true]

/-- Witness for C9: a rule whose first condition fails (a `unit_id` `eq`
mismatch) and whose second condition is `public`: both conditions are
visited and the rule fails. -/
theorem evalRule_no_short_circuit_witness :
    (∀ c ∈ [(⟨"unit_id", .str "x", some "eq", none, "userID", []⟩ :
          ConfigCondition),
        ⟨"public", .null, none, none, "userID", []⟩],
      (evalConditionB
        ⟨0, fun _ => none, fun _ => "", fun _ _ => none, fun _ => none,
          fun t => t, fun _ => ⟨none, none, none, none⟩⟩
        ⟨⟨⟨[], [], [], [], []⟩, 0, 0, "Network", ⟨0, 0, 0, 10000⟩⟩, [], [], []⟩
        (fun _ _ => ConfigEvaluation.make false "" none [] (.obj []) none none
          none false)
        ⟨some "u", none, none, none, none, none, none, none, none, none, none⟩
        c).unsupported = false) ∧
    ((evalRuleB
        ⟨0, fun _ => none, fun _ => "", fun _ _ => none, fun _ => none,
          fun t => t, fun _ => ⟨none, none, none, none⟩⟩
        ⟨⟨⟨[], [], [], [], []⟩, 0, 0, "Network", ⟨0, 0, 0, 10000⟩⟩, [], [], []⟩
        (fun _ _ => ConfigEvaluation.make false "" none [] (.obj []) none none
          none false)
        ⟨some "u", none, none, none, none, none, none, none, none, none, none⟩
        ⟨"r1", none, 100, .obj [], "userID", none, none, none,
          [⟨"unit_id", .str "x", some "eq", none, "userID", []⟩,
           ⟨"public", .null, none, none, "userID", []⟩]⟩).unsupported = false ∧
      (evalRuleB
        ⟨0, fun _ => none, fun _ => "", fun _ _ => none, fun _ => none,
          fun t => t, fun _ => ⟨none, none, none, none⟩⟩
        ⟨⟨⟨[], [], [], [], []⟩, 0, 0, "Network", ⟨0, 0, 0, 10000⟩⟩, [], [], []⟩
        (fun _ _ => ConfigEvaluation.make false "" none [] (.obj []) none none
          none false)
        ⟨some "u", none, none, none, none, none, none, none, none, none, none⟩
        ⟨"r1", none, 100, .obj [], "userID", none, none, none,
          [⟨"unit_id", .str "x", some "eq", none, "userID", []⟩,
           ⟨"public", .null, none, none, "userID", []⟩]⟩).secondary_exposures =
        [⟨"unit_id", .str "x", some "eq", none, "userID", []⟩,
         ⟨"public", .null, none, none, "userID", []⟩].flatMap
          (fun c => ((evalConditionB
            ⟨0, fun _ => none, fun _ => "", fun _ _ => none, fun _ => none,
              fun t => t, fun _ => ⟨none, none, none, none⟩⟩
            ⟨⟨⟨[], [], [], [], []⟩, 0, 0, "Network", ⟨0, 0, 0, 10000⟩⟩, [], [],
              []⟩
            (fun _ _ => ConfigEvaluation.make false "" none [] (.obj []) none
              none none false)
            ⟨some "u", none, none, none, none, none, none, none, none, none,
              none⟩ c).exposures).getD []) ∧
      ((evalRuleB
        ⟨0, fun _ => none, fun _ => "", fun _ _ => none, fun _ => none,
          fun t => t, fun _ => ⟨none, none, none, none⟩⟩
        ⟨⟨⟨[], [], [], [], []⟩, 0, 0, "Network", ⟨0, 0, 0, 10000⟩⟩, [], [], []⟩
        (fun _ _ => ConfigEvaluation.make false "" none [] (.obj []) none none
          none false)
        ⟨some "u", none, none, none, none, none, none, none, none, none, none⟩
        ⟨"r1", none, 100, .obj [], "userID", none, none, none,
          [⟨"unit_id", .str "x", some "eq", none, "userID", []⟩,
           ⟨"public", .null, none, none, "userID", []⟩]⟩).value = true ↔
        ∀ c ∈ [(⟨"unit_id", .str "x", some "eq", none, "userID", []⟩ :
            ConfigCondition),
          ⟨"public", .null, none, none, "userID", []⟩],
          (evalConditionB
            ⟨0, fun _ => none, fun _ => "", fun _ _ => none, fun _ => none,
              fun t => t, fun _ => ⟨none, none, none, none⟩⟩
            ⟨⟨⟨[], [], [], [], []⟩, 0, 0, "Network", ⟨0, 0, 0, 10000⟩⟩, [], [],
              []⟩
            (fun _ _ => ConfigEvaluation.make false "" none [] (.obj []) none
              none none false)
            ⟨some "u", none, none, none, none, none, none, none, none, none,
              none⟩ c).passes = true)) := by
  constructor
  · decide
  · exact evalRule_no_short_circuit _ _ _ _ _ (by decide)

/-! ## C4 -/

/-- The `_eval` rule loop skips failed (supported) rules, accumulating
their secondary exposures in order. -/
theorem evalRulesLoop_append_failed (ext : Externals) (st : EvalState)
    (gateFn : StatsigUser → String → ConfigEvaluation)
    (delegateFn : StatsigUser → ConfigSpec → ConfigEvaluation)
    (user : StatsigUser) (config : ConfigSpec) (pre rest : List ConfigRule)
    (hpre : ∀ r2 ∈ pre, (evalRuleB ext st gateFn user r2).unsupported = false ∧
      (evalRuleB ext st gateFn user r2).value = false) :
    ∀ acc : List SecondaryExposure,
    evalRulesLoop ext st gateFn delegateFn user config (pre ++ rest) acc =
      evalRulesLoop ext st gateFn delegateFn user config rest
        (acc ++ pre.flatMap
          (fun r2 => (evalRuleB ext st gateFn user r2).secondary_exposures)) := by
  induction pre with
  | nil => intro acc; simp
  | cons r2 pre ih =>
    intro acc
    obtain ⟨hu, hv⟩ := hpre r2 (List.mem_cons_self r2 pre)
    rw [List.cons_append]
    conv_lhs => unfold evalRulesLoop
    simp only [hu, Bool.false_eq_true, if_false, hv]
    rw [ih (fun r3 h3 => hpre r3 (List.mem_cons_of_mem r2 h3))]
    simp [List.flatMap_cons, List.append_assoc]

/-- C4: when the first passing rule of an enabled spec carries a
`configDelegate` naming a spec present in the store, `_eval` returns the
recursive evaluation of the delegate with `config_delegate` set to the
delegate name, `undelegated_secondary_exposures` equal to the exposures
gathered before the delegation, `secondary_exposures` equal to those
gathered exposures prefixed onto the delegate's, `explicit_parameters`
taken from the delegate spec, and `group_name` from the delegate's
result when non-null, else from the rule's `groupName`. -/
theorem eval_first_passing_rule_delegates (ext : Externals) (n : Nat)
    (st : EvalState) (user : StatsigUser) (config : ConfigSpec)
    (pre : List ConfigRule) (r : ConfigRule) (rest : List ConfigRule)
    (d : String) (dspec : ConfigSpec)
    (hen : config.enabled = true)
    (hrules : config.rules = pre ++ r :: rest)
    (hpre : ∀ r2 ∈ pre, (evalRuleAt ext n st user r2).unsupported = false ∧
      (evalRuleAt ext n st user r2).value = false)
    (hrU : (evalRuleAt ext n st user r).unsupported = false)
    (hrV : (evalRuleAt ext n st user r).value = true)
    (hdel : r.configDelegate = some d)
    (hstore : SMap.get? st.store.store.configs d = some dspec) :
    evalFuel ext (n + 1) st user config =
      { evalFuel ext n st user dspec with
          config_delegate := some d,
          undelegated_secondary_exposures :=
            pre.flatMap
              (fun r2 => (evalRuleAt ext n st user r2).secondary_exposures) ++
            (evalRuleAt ext n st user r).secondary_exposures,
          explicit_parameters := dspec.explicitParameters,
          secondary_exposures :=
            (pre.flatMap
              (fun r2 => (evalRuleAt ext n st user r2).secondary_exposures) ++
             (evalRuleAt ext n st user r).secondary_exposures) ++
            (evalFuel ext n st user dspec).secondary_exposures,
          group_name := (evalFuel ext n st user dspec).group_name.or
            r.groupName } := by
  show evalB ext st (gateFnAt ext n st) (fun u c => evalFuel ext n st u c)
    user config = _
  unfold evalB
  simp only [hen, Bool.not_true, Bool.false_eq_true, if_false]
  rw [hrules]
  unfold evalRuleAt at hpre hrU hrV
  rw [evalRulesLoop_append_failed ext st (gateFnAt ext n st) _ user config pre
    (r :: rest) hpre []]
  unfold evalRulesLoop
  simp only [hrU, Bool.false_eq_true, if_false, hrV, if_true]
  unfold evalDelegateB
  rw [hdel]
  dsimp only
  rw [hstore]
  dsimp only
  unfold evalRuleAt
  simp [List.nil_append]

/-- Witness for C4: a one-rule spec (no conditions, so the rule passes)
delegating to a disabled experiment present in the store. -/
theorem eval_first_passing_rule_delegates_witness :
    ((⟨"expA", "experiment", true, "sa", .obj [], "userID",
        [⟨"rA", none, 100, .obj [], "userID", some "gA", none, some "expB",
          []⟩], none, false, none, none⟩ : ConfigSpec).enabled = true) ∧
    evalFuel
      ⟨0, fun _ => none, fun _ => "", fun _ _ => none, fun _ => none,
        fun t => t, fun _ => ⟨none, none, none, none⟩⟩ 2
      ⟨⟨⟨[], [("expB", ⟨"expB", "experiment", false, "sb", .obj [], "userID",
          [], some ["p1"], false, some true, none⟩)], [], [], []⟩, 3, 3,
          "Network", ⟨0, 0, 0, 10000⟩⟩, [], [], []⟩
      ⟨some "u", none, none, none, none, none, none, none, none, none, none⟩
      ⟨"expA", "experiment", true, "sa", .obj [], "userID",
        [⟨"rA", none, 100, .obj [], "userID", some "gA", none, some "expB",
          []⟩], none, false, none, none⟩ =
      { evalFuel
          ⟨0, fun _ => none, fun _ => "", fun _ _ => none, fun _ => none,
            fun t => t, fun _ => ⟨none, none, none, none⟩⟩ 1
          ⟨⟨⟨[], [("expB", ⟨"expB", "experiment", false, "sb", .obj [],
              "userID", [], some ["p1"], false, some true, none⟩)], [], [],
              []⟩, 3, 3, "Network", ⟨0, 0, 0, 10000⟩⟩, [], [], []⟩
          ⟨some "u", none, none, none, none, none, none, none, none, none,
            none⟩
          ⟨"expB", "experiment", false, "sb", .obj [], "userID", [],
            some ["p1"], false, some true, none⟩ with
          config_delegate := some "expB",
          undelegated_secondary_exposures :=
            ([] : List ConfigRule).flatMap
              (fun r2 => (evalRuleAt
                ⟨0, fun _ => none, fun _ => "", fun _ _ => none, fun _ => none,
                  fun t => t, fun _ => ⟨none, none, none, none⟩⟩ 1
                ⟨⟨⟨[], [("expB", ⟨"expB", "experiment", false, "sb", .obj [],
                    "userID", [], some ["p1"], false, some true, none⟩)], [],
                    [], []⟩, 3, 3, "Network", ⟨0, 0, 0, 10000⟩⟩, [], [], []⟩
                ⟨some "u", none, none, none, none, none, none, none, none,
                  none, none⟩ r2).secondary_exposures) ++
            (evalRuleAt
              ⟨0, fun _ => none, fun _ => "", fun _ _ => none, fun _ => none,
                fun t => t, fun _ => ⟨none, none, none, none⟩⟩ 1
              ⟨⟨⟨[], [("expB", ⟨"expB", "experiment", false, "sb", .obj [],
                  "userID", [], some ["p1"], false, some true, none⟩)], [],
                  [], []⟩, 3, 3, "Network", ⟨0, 0, 0, 10000⟩⟩, [], [], []⟩
              ⟨some "u", none, none, none, none, none, none, none, none, none,
                none⟩
              ⟨"rA", none, 100, .obj [], "userID", some "gA", none,
                some "expB", []⟩).secondary_exposures,
          explicit_parameters := some ["p1"],
          secondary_exposures :=
            (([] : List ConfigRule).flatMap
              (fun r2 => (evalRuleAt
                ⟨0, fun _ => none, fun _ => "", fun _ _ => none, fun _ => none,
                  fun t => t, fun _ => ⟨none, none, none, none⟩⟩ 1
                ⟨⟨⟨[], [("expB", ⟨"expB", "experiment", false, "sb", .obj [],
                    "userID", [], some ["p1"], false, some true, none⟩)], [],
                    [], []⟩, 3, 3, "Network", ⟨0, 0, 0, 10000⟩⟩, [], [], []⟩
                ⟨some "u", none, none, none, none, none, none, none, none,
                  none, none⟩ r2).secondary_exposures) ++
            (evalRuleAt
              ⟨0, fun _ => none, fun _ => "", fun _ _ => none, fun _ => none,
                fun t => t, fun _ => ⟨none, none, none, none⟩⟩ 1
              ⟨⟨⟨[], [("expB", ⟨"expB", "experiment", false, "sb", .obj [],
                  "userID", [], some ["p1"], false, some true, none⟩)], [],
                  [], []⟩, 3, 3, "Network", ⟨0, 0, 0, 10000⟩⟩, [], [], []⟩
              ⟨some "u", none, none, none, none, none, none, none, none, none,
                none⟩
              ⟨"rA", none, 100, .obj [], "userID", some "gA", none,
                some "expB", []⟩).secondary_exposures) ++
            (evalFuel
              ⟨0, fun _ => none, fun _ => "", fun _ _ => none, fun _ => none,
                fun t => t, fun _ => ⟨none, none, none, none⟩⟩ 1
              ⟨⟨⟨[], [("expB", ⟨"expB", "experiment", false, "sb", .obj [],
                  "userID", [], some ["p1"], false, some true, none⟩)], [],
                  [], []⟩, 3, 3, "Network", ⟨0, 0, 0, 10000⟩⟩, [], [], []⟩
              ⟨some "u", none, none, none, none, none, none, none, none, none,
                none⟩
              ⟨"expB", "experiment", false, "sb", .obj [], "userID", [],
                some ["p1"], false, some true,
                none⟩).secondary_exposures,
          group_name := (evalFuel
            ⟨0, fun _ => none, fun _ => "", fun _ _ => none, fun _ => none,
              fun t => t, fun _ => ⟨none, none, none, none⟩⟩ 1
            ⟨⟨⟨[], [("expB", ⟨"expB", "experiment", false, "sb", .obj [],
                "userID", [], some ["p1"], false, some true, none⟩)], [], [],
                []⟩, 3, 3, "Network", ⟨0, 0, 0, 10000⟩⟩, [], [], []⟩
            ⟨some "u", none, none, none, none, none, none, none, none, none,
              none⟩
            ⟨"expB", "experiment", false, "sb", .obj [], "userID", [],
              some ["p1"], false, some true, none⟩).group_name.or
            (some "gA") } := by
  constructor
  · rfl
  · exact eval_first_passing_rule_delegates _ 1 _ _ _ [] _ [] "expB" _ rfl rfl
      (by intro r2 h; cases h) (by decide) (by decide) rfl rfl

/-! ## C10 -/

/-- C10 counterexample: when the store is not serving checks
(`lastUpdateTime = 0`), `getClientInitializeResponse` returns `null`
without touching the user — the caller's user object still has its
`privateAttributes` — refuting the claim that the call always strips
them. -/
theorem getClientInitializeResponse_not_serving_keeps_private :
    getClientInitializeResponse
      ⟨0, fun _ => none, fun _ => "", fun _ _ => none, fun _ => none,
        fun t => t, fun _ => ⟨none, none, none, none⟩⟩ 1
      ⟨⟨⟨[], [], [], [], []⟩, 0, 0, "Uninitialized", ⟨0, 0, 0, 10000⟩⟩, [],
        [], []⟩
      ⟨some "u", none, none, none, none, none, none, none,
        some [("secret", JSON.str "v")], none, none⟩ none =
      (⟨some "u", none, none, none, none, none, none, none,
        some [("secret", JSON.str "v")], none, none⟩, none) ∧
    (⟨some "u", none, none, none, none, none, none, none,
        some [("secret", JSON.str "v")], none, none⟩ :
      StatsigUser).privateAttributes ≠ none := by
  constructor
  · rfl
  · simp

/-- C10 amended: whenever the store is serving checks (so a payload is
returned), `getClientInitializeResponse` mutates its user argument in
place: after the call the caller's user object is the original user with
the `privateAttributes` property removed, and that same mutated object
is the one embedded in the returned payload's `user` field. -/
theorem getClientInitializeResponse_strips_private (ext : Externals)
    (fuel : Nat) (st : EvalState) (user : StatsigUser) (hash : Option String)
    (h : SpecStore.isServingChecks st.store = true) :
    (getClientInitializeResponse ext fuel st user hash).1 =
      { user with privateAttributes := none } ∧
    ∃ p, (getClientInitializeResponse ext fuel st user hash).2 = some p ∧
      p.user = (getClientInitializeResponse ext fuel st user hash).1 := by
  unfold getClientInitializeResponse
  rw [h]
  exact ⟨rfl, _, rfl, rfl⟩

/-- Witness for C10: a serving store (nonzero `lastUpdateTime`) and a
user with private attributes. -/
theorem getClientInitializeResponse_strips_private_witness :
    SpecStore.isServingChecks
      (⟨⟨⟨[], [], [], [], []⟩, 5, 5, "Network", ⟨0, 0, 0, 10000⟩⟩, [], [],
        []⟩ : EvalState).store = true ∧
    ((getClientInitializeResponse
        ⟨0, fun _ => none, fun _ => "", fun _ _ => none, fun _ => none,
          fun t => t, fun _ => ⟨none, none, none, none⟩⟩ 1
        ⟨⟨⟨[], [], [], [], []⟩, 5, 5, "Network", ⟨0, 0, 0, 10000⟩⟩, [], [], []⟩
        ⟨some "u", none, none, none, none, none, none, none,
          some [("secret", JSON.str "v")], none, none⟩ none).1 =
      { (⟨some "u", none, none, none, none, none, none, none,
          some [("secret", JSON.str "v")], none, none⟩ : StatsigUser) with
          privateAttributes := none } ∧
    ∃ p, (getClientInitializeResponse
        ⟨0, fun _ => none, fun _ => "", fun _ _ => none, fun _ => none,
          fun t => t, fun _ => ⟨none, none, none, none⟩⟩ 1
        ⟨⟨⟨[], [], [], [], []⟩, 5, 5, "Network", ⟨0, 0, 0, 10000⟩⟩, [], [], []⟩
        ⟨some "u", none, none, none, none, none, none, none,
          some [("secret", JSON.str "v")], none, none⟩ none).2 = some p ∧
      p.user = (getClientInitializeResponse
        ⟨0, fun _ => none, fun _ => "", fun _ _ => none, fun _ => none,
          fun t => t, fun _ => ⟨none, none, none, none⟩⟩ 1
        ⟨⟨⟨[], [], [], [], []⟩, 5, 5, "Network", ⟨0, 0, 0, 10000⟩⟩, [], [], []⟩
        ⟨some "u", none, none, none, none, none, none, none,
          some [("secret", JSON.str "v")], none, none⟩ none).1) :=
  ⟨rfl,
   getClientInitializeResponse_strips_private _ 1 _ _ none rfl⟩

/-! ## C5 -/

/-- C5: override lookup returns the entry stored under `user.userID` when
one exists, otherwise the entry under the global key `""` when one
exists, otherwise nothing; a gate override yields an evaluation whose
boolean value is the stored value, and a config/layer override yields an
evaluation with `value = true`, `json_value` the stored map and
`rule_id = "override"` (both with `rule_id = "override"`). -/
theorem override_lookup_matches_spec :
    (∀ (st : EvalState) (user : StatsigUser) (name : String),
      lookupGateOverride st user name =
        (specOverrideEntry (SMap.get? st.gateOverrides name) user).map
          (fun v =>
            ({ value := v, rule_id := "override", secondary_exposures := [],
               json_value := .obj [], explicit_parameters := none,
               config_delegate := none, unsupported := false,
               undelegated_secondary_exposures := [],
               is_experiment_group := false, group_name := none,
               evaluation_details := none,
               configVersion := none } : ConfigEvaluation))) ∧
    (∀ (user : StatsigUser) (ovr : Option (SMap (SMap JSON))),
      lookupConfigBasedOverride user ovr =
        (specOverrideEntry ovr user).map
          (fun v =>
            ({ value := true, rule_id := "override", secondary_exposures := [],
               json_value := .obj v, explicit_parameters := none,
               config_delegate := none, unsupported := false,
               undelegated_secondary_exposures := [],
               is_experiment_group := false, group_name := none,
               evaluation_details := none,
               configVersion := none } : ConfigEvaluation))) := by
  constructor
  · intro st user name
    rcases hov : SMap.get? st.gateOverrides name with _ | m
    · simp [lookupGateOverride, specOverrideEntry, hov]
    · rcases huid : user.userID with _ | uid
      · rcases hg : SMap.get? m "" with _ | v <;>
          simp [lookupGateOverride, specOverrideEntry, hov, huid, hg,
            ConfigEvaluation.make]
      · rcases hu2 : SMap.get? m uid with _ | v
        · rcases hg : SMap.get? m "" with _ | v2 <;>
            simp [lookupGateOverride, specOverrideEntry, hov, huid, hu2, hg,
              ConfigEvaluation.make]
        · simp [lookupGateOverride, specOverrideEntry, hov, huid, hu2,
            ConfigEvaluation.make]
  · intro user ovr
    rcases ovr with _ | m
    · simp [lookupConfigBasedOverride, specOverrideEntry]
    · rcases huid : user.userID with _ | uid
      · rcases hg : SMap.get? m "" with _ | v <;>
          simp [lookupConfigBasedOverride, specOverrideEntry, huid, hg,
            ConfigEvaluation.make]
      · rcases hu2 : SMap.get? m uid with _ | v
        · rcases hg : SMap.get? m "" with _ | v2 <;>
            simp [lookupConfigBasedOverride, specOverrideEntry, huid, hu2, hg,
              ConfigEvaluation.make]
        · simp [lookupConfigBasedOverride, specOverrideEntry, huid, hu2,
            ConfigEvaluation.make]

end Statsig
